import Mathlib

/-!
Verification development for the "Bit För Bit" puzzle-collection backend.

The development shallowly embeds the puzzle record lifecycle of the backend:
the request-input normalisation (PuzzleController.updatePuzzleInput), the
mongoose Puzzle schema (casts, per-path validators, the pre-save hook), the
create/update/load controller actions, the private-note cipher pipeline
(AES-256-CBC with a configured key and IV, PKCS#7 padding, hex coding and a
JSON envelope), and the user authentication static.

Modelling conventions:
* Inbound request-body fields are JavaScript values as §6 of the design
  document describes them (strings or absent); the JsVal type also carries
  the boolean / null / Date values that the controller itself creates while
  normalising the input.
* The AES-256 block permutation (with the configured key already applied) is
  an external Node `crypto` primitive, so it enters the model as a pair of
  parameters E / D together with the hypotheses the library guarantees
  (16-byte blocks map to 16-byte blocks, D inverts E).  CBC chaining, PKCS#7
  padding, hex serialisation, UTF-8 coding and the JSON envelope — the parts
  visible in the repository's own code — are modelled concretely.
* Strings handed to the cipher are modelled as their Unicode code-point
  sequences (List Nat); the UTF-8 encoder/decoder of the Node runtime is
  modelled concretely as well.
* Mongoose casting follows mongoose's documented semantics: for Number
  paths the empty string casts to null, for Date paths the empty string
  casts to null, Boolean paths accept true/'true'/'1'/'yes' and their
  false counterparts, String paths are trimmed.  Numeric literals are
  modelled in integer form (the schema's numeric fields are integers).
* A field of a stored document is undefined, null or a value (FVal); a
  validator is skipped on an undefined value, mongoose reports at most one
  message per path (the first failing check), and paths are processed in
  schema declaration order.
-/

/-! ## JavaScript values of a request body -/

/-- JavaScript value as it occurs in the controller's request handling:
absent (undefined), null, a string, a boolean, a (millisecond) Date, or an
Invalid Date produced by parsing an unparsable date string. -/
inductive JsVal where
  | undefined
  | null
  | str (s : String)
  | bool (b : Bool)
  | date (ms : Int)
  | invalidDate
deriving DecidableEq, Repr

/-- JavaScript truthiness of a JsVal (Date objects are always truthy,
the empty string is falsy). -/
def truthy : JsVal → Bool
  | .undefined => false
  | .null => false
  | .str s => !(s == "")
  | .bool b => b
  | .date _ => true
  | .invalidDate => true

/-- JavaScript `a || b`. -/
def jsOr (a b : JsVal) : JsVal := if truthy a then a else b

/-- Whitespace class of the runtime's trim. -/
def isWhitespaceChar (c : Char) : Bool :=
  decide (c = ' ' ∨ c = '\t' ∨ c = '\n' ∨ c = '\r')

/-- JavaScript String.prototype.trim, modelled over the character list so
that it evaluates inside the kernel. -/
def jsTrim (s : String) : String :=
  String.mk (((s.data.dropWhile isWhitespaceChar).reverse.dropWhile isWhitespaceChar).reverse)

/-- Lowercasing of one character as JavaScript toLowerCase performs it on
the ASCII and Latin-1 letters the user model allows. -/
def lowerChar (c : Char) : Char :=
  if (65 ≤ c.toNat ∧ c.toNat ≤ 90) ∨ (192 ≤ c.toNat ∧ c.toNat ≤ 222 ∧ c.toNat ≠ 215) then
    Char.ofNat (c.toNat + 32)
  else c

/-- JavaScript String.prototype.toLowerCase over the character list. -/
def jsToLower (s : String) : String := String.mk (s.data.map lowerChar)

/-- Value of a list of decimal digit characters, none if empty or if a
non-digit occurs. -/
def digitsToNat : List Char → Option Nat
  | [] => none
  | cs => cs.foldl (fun acc c =>
      match acc with
      | none => none
      | some n => if c.isDigit then some (n * 10 + (c.toNat - 48)) else none)
      (some 0)

/-- JavaScript `Number(s)` for the integer-form numerals of the schema's
numeric fields: the empty (or all-whitespace) string coerces to 0, an
optionally signed digit string to its value, anything else to NaN (none). -/
def jsNumberStr (s : String) : Option Int :=
  let t := jsTrim s
  if t = "" then some 0
  else
    match t.data with
    | '-' :: rest => (digitsToNat rest).map (fun n => -(n : Int))
    | '+' :: rest => (digitsToNat rest).map (fun n => (n : Int))
    | ds => (digitsToNat ds).map (fun n => (n : Int))

/-- JavaScript `isNaN(v)`, i.e. whether `Number(v)` is NaN. -/
def isNaNJs : JsVal → Bool
  | .undefined => true
  | .null => false
  | .str s => (jsNumberStr s).isNone
  | .bool _ => false
  | .date _ => false
  | .invalidDate => true

/-- JavaScript `parseInt(s)` on a string: optional sign followed by the
longest run of leading digits; NaN (none) if there is no leading digit. -/
def parseIntStr (s : String) : Option Int :=
  let t := jsTrim s
  match t.data with
  | '-' :: rest =>
      match rest.takeWhile Char.isDigit with
      | [] => none
      | ds => (digitsToNat ds).map (fun n => -(n : Int))
  | '+' :: rest =>
      match rest.takeWhile Char.isDigit with
      | [] => none
      | ds => (digitsToNat ds).map (fun n => (n : Int))
  | l =>
      match l.takeWhile Char.isDigit with
      | [] => none
      | ds => (digitsToNat ds).map (fun n => (n : Int))

/-- JavaScript `parseInt(v)` on a request-body value (non-strings coerce to
strings that carry no leading digits, hence NaN). -/
def parseIntJs : JsVal → Option Int
  | .str s => parseIntStr s
  | _ => none

/-- JavaScript `<` between two possibly-NaN numbers: any comparison with
NaN is false. -/
def ltNaN (a b : Option Int) : Bool :=
  match a, b with
  | some x, some y => x < y
  | _, _ => false

/-! ## UTF-8 coding (the Node runtime's `utf8` Buffer coding) -/

/-- UTF-8 encoding of one Unicode code point, written arithmetically. -/
def utf8EncodeChar (c : Nat) : List Nat :=
  if c < 0x80 then [c]
  else if c < 0x800 then [0xC0 + c / 64, 0x80 + c % 64]
  else if c < 0x10000 then [0xE0 + c / 4096, 0x80 + c / 64 % 64, 0x80 + c % 64]
  else [0xF0 + c / 262144, 0x80 + c / 4096 % 64, 0x80 + c / 64 % 64, 0x80 + c % 64]

/-- UTF-8 encoding of a code-point sequence. -/
def utf8Encode (s : List Nat) : List Nat := s.flatMap utf8EncodeChar

/-- UTF-8 decoding of a byte sequence back to code points; none on a
malformed sequence. -/
def utf8Decode : List Nat → Option (List Nat)
  | [] => some []
  | b0 :: rest =>
    if b0 < 0x80 then (utf8Decode rest).map (fun l => b0 :: l)
    else if b0 < 0xC0 then none
    else if b0 < 0xE0 then
      match rest with
      | b1 :: rest2 =>
        if 0x80 ≤ b1 ∧ b1 < 0xC0 then
          (utf8Decode rest2).map (fun l => ((b0 - 0xC0) * 64 + (b1 - 0x80)) :: l)
        else none
      | [] => none
    else if b0 < 0xF0 then
      match rest with
      | b1 :: b2 :: rest3 =>
        if (0x80 ≤ b1 ∧ b1 < 0xC0) ∧ (0x80 ≤ b2 ∧ b2 < 0xC0) then
          (utf8Decode rest3).map
            (fun l => ((b0 - 0xE0) * 4096 + (b1 - 0x80) * 64 + (b2 - 0x80)) :: l)
        else none
      | _ => none
    else if b0 < 0xF8 then
      match rest with
      | b1 :: b2 :: b3 :: rest4 =>
        if (0x80 ≤ b1 ∧ b1 < 0xC0) ∧ (0x80 ≤ b2 ∧ b2 < 0xC0) ∧ (0x80 ≤ b3 ∧ b3 < 0xC0) then
          (utf8Decode rest4).map
            (fun l =>
              ((b0 - 0xF0) * 262144 + (b1 - 0x80) * 4096 + (b2 - 0x80) * 64 + (b3 - 0x80)) :: l)
        else none
      | _ => none
    else none

/-! ## Hex coding (Node Buffer `hex` coding) -/

/-- Lowercase hex digit of a value below 16 (Node emits lowercase hex). -/
def hexDigit : Nat → Char
  | 0 => '0' | 1 => '1' | 2 => '2' | 3 => '3' | 4 => '4'
  | 5 => '5' | 6 => '6' | 7 => '7' | 8 => '8' | 9 => '9'
  | 10 => 'a' | 11 => 'b' | 12 => 'c' | 13 => 'd' | 14 => 'e' | 15 => 'f'
  | _ => '0'

/-- Value of one hex digit character (both cases), none otherwise. -/
def hexVal (c : Char) : Option Nat :=
  let n := c.toNat
  if 48 ≤ n ∧ n ≤ 57 then some (n - 48)
  else if 97 ≤ n ∧ n ≤ 102 then some (n - 87)
  else if 65 ≤ n ∧ n ≤ 70 then some (n - 55)
  else none

/-- Hex serialisation of a byte sequence, two characters per byte. -/
def hexEncode (bs : List Nat) : List Char :=
  bs.flatMap (fun b => [hexDigit (b / 16), hexDigit (b % 16)])

/-- Hex parsing of a character sequence back to bytes; none on a stray
character or an odd length. -/
def hexDecode : List Char → Option (List Nat)
  | [] => some []
  | c1 :: c2 :: rest =>
    match hexVal c1, hexVal c2 with
    | some h, some l => (hexDecode rest).map (fun bs => (h * 16 + l) :: bs)
    | _, _ => none
  | [_] => none

/-! ## PKCS#7 padding (applied implicitly by Node `createCipheriv`) -/

/-- PKCS#7 padding to a multiple of 16 bytes. -/
def pkcs7pad (bs : List Nat) : List Nat :=
  let p := 16 - bs.length % 16
  bs ++ List.replicate p p

/-- PKCS#7 unpadding; none when the trailing padding is malformed (the
`decipher.final` error on corrupt input). -/
def pkcs7unpad (bs : List Nat) : Option (List Nat) :=
  match bs.getLast? with
  | none => none
  | some p =>
    if 1 ≤ p ∧ p ≤ 16 ∧ p ≤ bs.length ∧ (bs.drop (bs.length - p)).all (fun x => x = p) then
      some (bs.take (bs.length - p))
    else none

/-! ## CBC mode -/

/-- Pointwise XOR of two byte sequences of equal length. -/
def xorBytes (a b : List Nat) : List Nat := List.zipWith (fun x y => x ^^^ y) a b

/-- Split a byte sequence into chunks of 16 (the last chunk is ragged if
the length is not a multiple of 16). -/
def chunk16 (l : List Nat) : List (List Nat) :=
  if l = [] then [] else l.take 16 :: chunk16 (l.drop 16)
termination_by l.length
decreasing_by
  rename_i h
  have : l.length ≠ 0 := fun hl => h (List.eq_nil_of_length_eq_zero hl)
  simp only [List.length_drop]
  omega

/-- CBC encryption over a list of plaintext blocks: each block is XORed
with the previous ciphertext block (initially the IV) and then passed
through the block permutation E. -/
def cbcEncryptBlocks (E : List Nat → List Nat) : List Nat → List (List Nat) → List (List Nat)
  | _, [] => []
  | prev, b :: bs =>
    let c := E (xorBytes b prev)
    c :: cbcEncryptBlocks E c bs

/-- CBC decryption over a list of ciphertext blocks with the inverse block
permutation D. -/
def cbcDecryptBlocks (D : List Nat → List Nat) : List Nat → List (List Nat) → List (List Nat)
  | _, [] => []
  | prev, c :: cs => xorBytes (D c) prev :: cbcDecryptBlocks D c cs

/-- Full CBC encryption of a byte sequence: PKCS#7 pad, chunk, chain. -/
def cbcEncrypt (E : List Nat → List Nat) (iv bs : List Nat) : List Nat :=
  (cbcEncryptBlocks E iv (chunk16 (pkcs7pad bs))).flatten

/-- Full CBC decryption of a byte sequence: chunk, chain, unpad; none when
the ciphertext length is not a positive multiple of the block size or the
padding is corrupt (the Node decipher errors). -/
def cbcDecrypt (D : List Nat → List Nat) (iv ct : List Nat) : Option (List Nat) :=
  if ct.length % 16 = 0 then
    pkcs7unpad (cbcDecryptBlocks D iv (chunk16 ct)).flatten
  else none

/-! ## The JSON envelope stored in place of the plaintext note -/

/-- Encrypted envelope as `encryptPrivateNote` in src/src/models/puzzle.js
returns it: the hex of the configured IV and the hex of the ciphertext. -/
structure Envelope where
  iv : List Char
  encryptedData : List Char
deriving DecidableEq, Repr

/-- Literal written before the iv value in the serialised envelope. -/
def envLit1 : List Char := ("\x7b\"iv\":\"").data

/-- Literal written between the iv and the encryptedData values. -/
def envLit2 : List Char := ("\",\"encryptedData\":\"").data

/-- Literal closing the serialised envelope. -/
def envLit3 : List Char := ("\"\x7d").data

/-- JSON.stringify of the envelope object (its two fields are hex strings,
so no JSON escaping arises). -/
def stringifyEnvelope (e : Envelope) : List Char :=
  envLit1 ++ e.iv ++ envLit2 ++ e.encryptedData ++ envLit3

/-- Strip an expected literal from the front of a character sequence. -/
def stripLit : List Char → List Char → Option (List Char)
  | [], l => some l
  | _ :: _, [] => none
  | p :: ps, c :: cs => if p = c then stripLit ps cs else none

/-- JSON.parse of a serialised envelope (the shape the backend itself
produces); none when the text is not of that shape. -/
def parseEnvelope (l : List Char) : Option Envelope :=
  match stripLit envLit1 l with
  | none => none
  | some r1 =>
    let iv := r1.takeWhile (fun c => c ≠ '"')
    match stripLit envLit2 (r1.dropWhile (fun c => c ≠ '"')) with
    | none => none
    | some r2 =>
      let ed := r2.takeWhile (fun c => c ≠ '"')
      match stripLit envLit3 (r2.dropWhile (fun c => c ≠ '"')) with
      | none => none
      | some r3 => if r3 = [] then some ⟨iv, ed⟩ else none

/-! ## The note cipher of src/src/models/puzzle.js -/

/-- Model of `encryptPrivateNote` (src/src/models/puzzle.js lines 297-304):
the configured key is already folded into the AES-256 block permutation E,
the configured IV is the `iv` argument, the plaintext is the code-point
sequence of the note.  Returns the envelope of hex IV and hex ciphertext. -/
def encryptPrivateNote (E : List Nat → List Nat) (iv : List Nat) (note : List Nat) : Envelope :=
  ⟨hexEncode iv, hexEncode (cbcEncrypt E iv (utf8Encode note))⟩

/-- Serialised envelope exactly as the pre-save hook stores it:
`JSON.stringify(encryptPrivateNote(privateNote))`. -/
def storedPrivateNote (E : List Nat → List Nat) (iv : List Nat) (note : List Nat) : String :=
  String.mk (stringifyEnvelope (encryptPrivateNote E iv note))

/-- Model of `PuzzleController.decryptPrivateNote` (src/src/controllers/
puzzle-controller.js lines 689-702): JSON.parse the stored envelope, hex
decode the stored IV and ciphertext, CBC decrypt with the inverse block
permutation D, and decode the UTF-8 plaintext; none models the thrown
decryption error on a corrupt envelope. -/
def decryptPrivateNote (D : List Nat → List Nat) (stored : String) : Option (List Nat) :=
  match parseEnvelope stored.data with
  | none => none
  | some env =>
    match hexDecode env.iv, hexDecode env.encryptedData with
    | some iv, some ct =>
      match cbcDecrypt D iv ct with
      | some bs => utf8Decode bs
      | none => none
    | _, _ => none

/-! ## Roundtrip lemmas for the cipher pipeline -/

theorem utf8EncodeChar_lt256 {c : Nat} (hc : c < 0x110000) :
    ∀ x ∈ utf8EncodeChar c, x < 256 := by
  intro x hx
  unfold utf8EncodeChar at hx
  split_ifs at hx <;> simp only [List.mem_cons, List.mem_singleton, List.not_mem_nil] at hx <;>
    rcases hx with h | h | h | h | h <;> first | omega | exact absurd h (by simp)

theorem utf8Decode_cons (b0 : Nat) (rest : List Nat) :
    utf8Decode (b0 :: rest) =
      (if b0 < 0x80 then (utf8Decode rest).map (fun l => b0 :: l)
      else if b0 < 0xC0 then none
      else if b0 < 0xE0 then
        match rest with
        | b1 :: rest2 =>
          if 0x80 ≤ b1 ∧ b1 < 0xC0 then
            (utf8Decode rest2).map (fun l => ((b0 - 0xC0) * 64 + (b1 - 0x80)) :: l)
          else none
        | [] => none
      else if b0 < 0xF0 then
        match rest with
        | b1 :: b2 :: rest3 =>
          if (0x80 ≤ b1 ∧ b1 < 0xC0) ∧ (0x80 ≤ b2 ∧ b2 < 0xC0) then
            (utf8Decode rest3).map
              (fun l => ((b0 - 0xE0) * 4096 + (b1 - 0x80) * 64 + (b2 - 0x80)) :: l)
          else none
        | _ => none
      else if b0 < 0xF8 then
        match rest with
        | b1 :: b2 :: b3 :: rest4 =>
          if (0x80 ≤ b1 ∧ b1 < 0xC0) ∧ (0x80 ≤ b2 ∧ b2 < 0xC0) ∧ (0x80 ≤ b3 ∧ b3 < 0xC0) then
            (utf8Decode rest4).map
              (fun l =>
                ((b0 - 0xF0) * 262144 + (b1 - 0x80) * 4096 + (b2 - 0x80) * 64 + (b3 - 0x80)) :: l)
          else none
        | _ => none
      else none) := by
  cases rest with
  | nil => rfl
  | cons b1 r2 =>
    cases r2 with
    | nil => rfl
    | cons b2 r3 =>
      cases r3 with
      | nil => rfl
      | cons b3 r4 => rfl

theorem utf8Decode_encodeChar {c : Nat} (hc : c < 0x110000) (rest : List Nat) :
    utf8Decode (utf8EncodeChar c ++ rest) = (utf8Decode rest).map (fun l => c :: l) := by
  rcases Nat.lt_or_ge c 0x80 with h1 | h1
  · have he : utf8EncodeChar c = [c] := by unfold utf8EncodeChar; rw [if_pos h1]
    rw [he, List.cons_append, List.nil_append, utf8Decode_cons, if_pos h1]
  rcases Nat.lt_or_ge c 0x800 with h2 | h2
  · have he : utf8EncodeChar c = [0xC0 + c / 64, 0x80 + c % 64] := by
      unfold utf8EncodeChar; rw [if_neg (Nat.not_lt.mpr h1), if_pos h2]
    have ha : ¬(0xC0 + c / 64 < 0x80) := by omega
    have hb : ¬(0xC0 + c / 64 < 0xC0) := by omega
    have hcc : 0xC0 + c / 64 < 0xE0 := by omega
    have hd : 0x80 ≤ 0x80 + c % 64 ∧ 0x80 + c % 64 < 0xC0 := by omega
    rw [he, List.cons_append, List.cons_append, List.nil_append, utf8Decode_cons,
      if_neg ha, if_neg hb, if_pos hcc]
    dsimp only
    rw [if_pos hd]
    have hv : (0xC0 + c / 64 - 0xC0) * 64 + (0x80 + c % 64 - 0x80) = c := by omega
    rw [hv]
  rcases Nat.lt_or_ge c 0x10000 with h3 | h3
  · have he : utf8EncodeChar c = [0xE0 + c / 4096, 0x80 + c / 64 % 64, 0x80 + c % 64] := by
      unfold utf8EncodeChar
      rw [if_neg (Nat.not_lt.mpr h1), if_neg (Nat.not_lt.mpr h2), if_pos h3]
    have ha : ¬(0xE0 + c / 4096 < 0x80) := by omega
    have hb : ¬(0xE0 + c / 4096 < 0xC0) := by omega
    have hcc : ¬(0xE0 + c / 4096 < 0xE0) := by omega
    have hdd : 0xE0 + c / 4096 < 0xF0 := by omega
    have hd : (0x80 ≤ 0x80 + c / 64 % 64 ∧ 0x80 + c / 64 % 64 < 0xC0) ∧
        0x80 ≤ 0x80 + c % 64 ∧ 0x80 + c % 64 < 0xC0 := by omega
    rw [he, List.cons_append, List.cons_append, List.cons_append, List.nil_append,
      utf8Decode_cons, if_neg ha, if_neg hb, if_neg hcc, if_pos hdd]
    dsimp only
    rw [if_pos hd]
    have hv : (0xE0 + c / 4096 - 0xE0) * 4096 + (0x80 + c / 64 % 64 - 0x80) * 64 +
        (0x80 + c % 64 - 0x80) = c := by omega
    rw [hv]
  · have he : utf8EncodeChar c =
        [0xF0 + c / 262144, 0x80 + c / 4096 % 64, 0x80 + c / 64 % 64, 0x80 + c % 64] := by
      unfold utf8EncodeChar
      rw [if_neg (Nat.not_lt.mpr h1), if_neg (Nat.not_lt.mpr h2), if_neg (Nat.not_lt.mpr h3)]
    have ha : ¬(0xF0 + c / 262144 < 0x80) := by omega
    have hb : ¬(0xF0 + c / 262144 < 0xC0) := by omega
    have hcc : ¬(0xF0 + c / 262144 < 0xE0) := by omega
    have hdd : ¬(0xF0 + c / 262144 < 0xF0) := by omega
    have hee : 0xF0 + c / 262144 < 0xF8 := by omega
    have hd : (0x80 ≤ 0x80 + c / 4096 % 64 ∧ 0x80 + c / 4096 % 64 < 0xC0) ∧
        (0x80 ≤ 0x80 + c / 64 % 64 ∧ 0x80 + c / 64 % 64 < 0xC0) ∧
        0x80 ≤ 0x80 + c % 64 ∧ 0x80 + c % 64 < 0xC0 := by omega
    rw [he, List.cons_append, List.cons_append, List.cons_append, List.cons_append,
      List.nil_append, utf8Decode_cons, if_neg ha, if_neg hb, if_neg hcc, if_neg hdd,
      if_pos hee]
    dsimp only
    rw [if_pos hd]
    have hv : (0xF0 + c / 262144 - 0xF0) * 262144 + (0x80 + c / 4096 % 64 - 0x80) * 4096 +
        (0x80 + c / 64 % 64 - 0x80) * 64 + (0x80 + c % 64 - 0x80) = c := by omega
    rw [hv]

theorem utf8Decode_encode {s : List Nat} (hs : ∀ c ∈ s, c < 0x110000) :
    utf8Decode (utf8Encode s) = some s := by
  induction s with
  | nil => rfl
  | cons c cs ih =>
    have hc : c < 0x110000 := hs c (List.mem_cons_self c cs)
    have hcs : ∀ x ∈ cs, x < 0x110000 := fun x hx => hs x (List.mem_cons_of_mem c hx)
    simp only [utf8Encode, List.flatMap_cons] at *
    rw [utf8Decode_encodeChar hc, ih hcs, Option.map_some']

theorem utf8Encode_lt256 {s : List Nat} (hs : ∀ c ∈ s, c < 0x110000) :
    ∀ x ∈ utf8Encode s, x < 256 := by
  intro x hx
  simp only [utf8Encode, List.mem_flatMap] at hx
  obtain ⟨c, hc, hxc⟩ := hx
  exact utf8EncodeChar_lt256 (hs c hc) x hxc

theorem hexVal_hexDigit : ∀ d : Fin 16, hexVal (hexDigit d.val) = some d.val := by decide

theorem hexDigit_ne_quote : ∀ d : Fin 16, hexDigit d.val ≠ '"' := by decide

theorem hexDecode_encode {bs : List Nat} (hbs : ∀ b ∈ bs, b < 256) :
    hexDecode (hexEncode bs) = some bs := by
  induction bs with
  | nil => rfl
  | cons b rest ih =>
    have hb : b < 256 := hbs b (List.mem_cons_self b rest)
    have hrest : ∀ x ∈ rest, x < 256 := fun x hx => hbs x (List.mem_cons_of_mem b hx)
    simp only [hexEncode, List.flatMap_cons, List.cons_append, List.nil_append] at *
    simp only [hexDecode]
    rw [hexVal_hexDigit ⟨b / 16, by omega⟩, hexVal_hexDigit ⟨b % 16, by omega⟩]
    simp only [ih hrest, Option.map_some']
    have hv : b / 16 * 16 + b % 16 = b := by omega
    rw [hv]

theorem hexEncode_ne_quote {bs : List Nat} (hbs : ∀ b ∈ bs, b < 256) :
    ∀ c ∈ hexEncode bs, c ≠ '"' := by
  intro c hc
  simp only [hexEncode, List.mem_flatMap] at hc
  obtain ⟨b, hb, hcb⟩ := hc
  have hb256 := hbs b hb
  simp only [List.mem_cons, List.mem_singleton, List.not_mem_nil, or_false] at hcb
  rcases hcb with h | h
  · exact h ▸ hexDigit_ne_quote ⟨b / 16, by omega⟩
  · exact h ▸ hexDigit_ne_quote ⟨b % 16, by omega⟩

theorem pkcs7unpad_append_replicate (bs : List Nat) (p : Nat) (h1 : 1 ≤ p) (h2 : p ≤ 16) :
    pkcs7unpad (bs ++ List.replicate p p) = some bs := by
  obtain ⟨q, rfl⟩ : ∃ q, p = q + 1 := ⟨p - 1, by omega⟩
  have hlast : (bs ++ List.replicate (q + 1) (q + 1)).getLast? = some (q + 1) := by
    rw [List.replicate_succ', ← List.append_assoc]
    exact List.getLast?_concat _
  have hlen : (bs ++ List.replicate (q + 1) (q + 1)).length = bs.length + (q + 1) := by
    simp [List.length_append, List.length_replicate]
  have hdrop : (bs ++ List.replicate (q + 1) (q + 1)).drop
      ((bs ++ List.replicate (q + 1) (q + 1)).length - (q + 1)) =
      List.replicate (q + 1) (q + 1) := by
    rw [hlen, Nat.add_sub_cancel]
    exact List.drop_left' rfl
  have htake : (bs ++ List.replicate (q + 1) (q + 1)).take
      ((bs ++ List.replicate (q + 1) (q + 1)).length - (q + 1)) = bs := by
    rw [hlen, Nat.add_sub_cancel]
    exact List.take_left' rfl
  have hall : ((bs ++ List.replicate (q + 1) (q + 1)).drop
      ((bs ++ List.replicate (q + 1) (q + 1)).length - (q + 1))).all
      (fun x => x = q + 1) = true := by
    rw [hdrop]
    simp [List.all_eq_true, List.mem_replicate]
  unfold pkcs7unpad
  rw [hlast]
  dsimp only
  rw [if_pos ⟨h1, h2, by omega, hall⟩]
  rw [htake]

theorem pkcs7unpad_pad (bs : List Nat) : pkcs7unpad (pkcs7pad bs) = some bs := by
  unfold pkcs7pad
  exact pkcs7unpad_append_replicate bs _ (by omega) (by omega)

theorem pkcs7pad_lt256 {bs : List Nat} (h : ∀ b ∈ bs, b < 256) :
    ∀ x ∈ pkcs7pad bs, x < 256 := by
  intro x hx
  unfold pkcs7pad at hx
  rcases List.mem_append.mp hx with hm | hm
  · exact h x hm
  · have := (List.mem_replicate.mp hm).2
    omega

theorem pkcs7pad_length_mod (bs : List Nat) : (pkcs7pad bs).length % 16 = 0 := by
  unfold pkcs7pad
  simp only [List.length_append, List.length_replicate]
  omega

theorem xorBytes_length (a b : List Nat) : (xorBytes a b).length = min a.length b.length := by
  simp [xorBytes, List.length_zipWith]

theorem xorBytes_cancel : ∀ (a b : List Nat), a.length = b.length →
    xorBytes (xorBytes a b) b = a := by
  intro a
  induction a with
  | nil => intro b _; rfl
  | cons x xs ih =>
    intro b hb
    cases b with
    | nil => simp at hb
    | cons y ys =>
      simp only [xorBytes, List.zipWith_cons_cons] at *
      rw [Nat.xor_cancel_right]
      have : xorBytes (xorBytes xs ys) ys = xs := ih ys (by simpa using hb)
      simp only [xorBytes] at this
      rw [this]

theorem xorBytes_lt256 {a b : List Nat} (ha : ∀ x ∈ a, x < 256) (hb : ∀ x ∈ b, x < 256) :
    ∀ x ∈ xorBytes a b, x < 256 := by
  induction a generalizing b with
  | nil => intro x hx; simp [xorBytes] at hx
  | cons y ys ih =>
    intro x hx
    cases b with
    | nil => simp [xorBytes] at hx
    | cons z zs =>
      simp only [xorBytes, List.zipWith_cons_cons, List.mem_cons] at hx
      rcases hx with h | h
      · subst h
        exact Nat.xor_lt_two_pow (n := 8) (ha y (by simp)) (hb z (by simp))
      · exact ih (fun u hu => ha u (by simp [hu])) (fun u hu => hb u (by simp [hu])) x h

theorem chunk16_nil : chunk16 [] = [] := by
  rw [chunk16]
  simp

theorem chunk16_cons {l : List Nat} (h : l ≠ []) :
    chunk16 l = l.take 16 :: chunk16 (l.drop 16) := by
  rw [chunk16]
  simp [h]

theorem chunk16_flatten {blocks : List (List Nat)} (h : ∀ b ∈ blocks, b.length = 16) :
    chunk16 blocks.flatten = blocks := by
  induction blocks with
  | nil => simpa using chunk16_nil
  | cons b bs ih =>
    have hb : b.length = 16 := h b (by simp)
    have hbne : b ≠ [] := by
      intro hn
      rw [hn] at hb
      simp at hb
    have hne : (b :: bs).flatten ≠ [] := by
      simp only [List.flatten_cons]
      intro hn
      exact hbne (List.append_eq_nil.mp hn).1
    rw [List.flatten_cons] at *
    rw [chunk16_cons hne, List.take_left' hb, List.drop_left' hb,
      ih (fun x hx => h x (by simp [hx]))]

theorem flatten_chunk16_aux : ∀ (n : Nat) (l : List Nat), l.length ≤ n →
    (chunk16 l).flatten = l := by
  intro n
  induction n with
  | zero =>
    intro l hl
    have : l = [] := List.eq_nil_of_length_eq_zero (by omega)
    subst this
    simp [chunk16_nil]
  | succ n ih =>
    intro l hl
    by_cases hn : l = []
    · subst hn; simp [chunk16_nil]
    · have hlen : 1 ≤ l.length := by
        cases l with
        | nil => exact absurd rfl hn
        | cons a as => simp
      rw [chunk16_cons hn, List.flatten_cons, ih (l.drop 16) (by simp [List.length_drop]; omega)]
      exact List.take_append_drop 16 l

theorem flatten_chunk16 (l : List Nat) : (chunk16 l).flatten = l :=
  flatten_chunk16_aux l.length l (le_refl _)

theorem chunk16_len_aux : ∀ (n : Nat) (l : List Nat), l.length ≤ n → l.length % 16 = 0 →
    ∀ b ∈ chunk16 l, b.length = 16 := by
  intro n
  induction n with
  | zero =>
    intro l hl _
    have : l = [] := List.eq_nil_of_length_eq_zero (by omega)
    subst this
    simp [chunk16_nil]
  | succ n ih =>
    intro l hl hmod b hb
    by_cases hn : l = []
    · subst hn; simp [chunk16_nil] at hb
    · have hlen : 1 ≤ l.length := by
        cases l with
        | nil => exact absurd rfl hn
        | cons a as => simp
      have h16 : 16 ≤ l.length := by omega
      rw [chunk16_cons hn] at hb
      rcases List.mem_cons.mp hb with h | h
      · rw [h, List.length_take]; omega
      · exact ih (l.drop 16) (by simp [List.length_drop]; omega)
          (by simp [List.length_drop]; omega) b h

theorem chunk16_len {l : List Nat} (hmod : l.length % 16 = 0) :
    ∀ b ∈ chunk16 l, b.length = 16 :=
  chunk16_len_aux l.length l (le_refl _) hmod

theorem chunk16_mem_lt256_aux : ∀ (n : Nat) (l : List Nat), l.length ≤ n →
    (∀ x ∈ l, x < 256) → ∀ b ∈ chunk16 l, ∀ x ∈ b, x < 256 := by
  intro n
  induction n with
  | zero =>
    intro l hl _ b hb
    have : l = [] := List.eq_nil_of_length_eq_zero (by omega)
    subst this
    simp [chunk16_nil] at hb
  | succ n ih =>
    intro l hl hx b hb
    by_cases hn : l = []
    · subst hn; simp [chunk16_nil] at hb
    · rw [chunk16_cons hn] at hb
      rcases List.mem_cons.mp hb with h | h
      · intro x hxm
        exact hx x (List.mem_of_mem_take (h ▸ hxm))
      · exact ih (l.drop 16)
          (by simp [List.length_drop]; cases l with
            | nil => exact absurd rfl hn
            | cons a as => simp at hl ⊢; omega)
          (fun x hxm => hx x (List.mem_of_mem_drop hxm)) b h

theorem chunk16_mem_lt256 {l : List Nat} (hx : ∀ x ∈ l, x < 256) :
    ∀ b ∈ chunk16 l, ∀ x ∈ b, x < 256 :=
  chunk16_mem_lt256_aux l.length l (le_refl _) hx

theorem cbcEncryptBlocks_spec (E : List Nat → List Nat)
    (hLen : ∀ b, b.length = 16 → (E b).length = 16)
    (h256 : ∀ b, (∀ x ∈ b, x < 256) → ∀ x ∈ E b, x < 256) :
    ∀ (blocks : List (List Nat)) (prev : List Nat), prev.length = 16 →
      (∀ x ∈ prev, x < 256) →
      (∀ b ∈ blocks, b.length = 16 ∧ ∀ x ∈ b, x < 256) →
      ∀ c ∈ cbcEncryptBlocks E prev blocks, c.length = 16 ∧ ∀ x ∈ c, x < 256 := by
  intro blocks
  induction blocks with
  | nil => intro prev _ _ _ c hc; simp [cbcEncryptBlocks] at hc
  | cons b bs ih =>
    intro prev hprev hprev256 hblocks c hc
    have hb := hblocks b (by simp)
    have hxlen : (xorBytes b prev).length = 16 := by
      rw [xorBytes_length, hb.1, hprev]
      simp
    have hx256 : ∀ x ∈ xorBytes b prev, x < 256 := xorBytes_lt256 hb.2 hprev256
    have hclen : (E (xorBytes b prev)).length = 16 := hLen _ hxlen
    have hc256 : ∀ x ∈ E (xorBytes b prev), x < 256 := h256 _ hx256
    simp only [cbcEncryptBlocks, List.mem_cons] at hc
    rcases hc with h | h
    · subst h; exact ⟨hclen, hc256⟩
    · exact ih (E (xorBytes b prev)) hclen hc256
        (fun x hx => hblocks x (by simp [hx])) c h

theorem cbcDecryptBlocks_encryptBlocks (E D : List Nat → List Nat)
    (hInv : ∀ b, b.length = 16 → D (E b) = b)
    (hLen : ∀ b, b.length = 16 → (E b).length = 16) :
    ∀ (blocks : List (List Nat)) (prev : List Nat), prev.length = 16 →
      (∀ b ∈ blocks, b.length = 16) →
      cbcDecryptBlocks D prev (cbcEncryptBlocks E prev blocks) = blocks := by
  intro blocks
  induction blocks with
  | nil => intro prev _ _; rfl
  | cons b bs ih =>
    intro prev hprev hblocks
    have hb : b.length = 16 := hblocks b (by simp)
    have hxlen : (xorBytes b prev).length = 16 := by
      rw [xorBytes_length, hb, hprev]; simp
    simp only [cbcEncryptBlocks, cbcDecryptBlocks]
    rw [hInv _ hxlen, xorBytes_cancel b prev (by omega)]
    rw [ih (E (xorBytes b prev)) (hLen _ hxlen) (fun x hx => hblocks x (by simp [hx]))]

theorem flatten_length_16 {blocks : List (List Nat)} (h : ∀ b ∈ blocks, b.length = 16) :
    blocks.flatten.length % 16 = 0 := by
  induction blocks with
  | nil => simp
  | cons b bs ih =>
    simp only [List.flatten_cons, List.length_append]
    have hb : b.length = 16 := h b (by simp)
    have := ih (fun x hx => h x (by simp [hx]))
    omega

theorem flatten_lt256 {blocks : List (List Nat)} (h : ∀ b ∈ blocks, ∀ x ∈ b, x < 256) :
    ∀ x ∈ blocks.flatten, x < 256 := by
  intro x hx
  rcases List.mem_flatten.mp hx with ⟨b, hb, hxb⟩
  exact h b hb x hxb

theorem cbcEncryptBlocks_len (E : List Nat → List Nat)
    (hLen : ∀ b, b.length = 16 → (E b).length = 16) :
    ∀ (blocks : List (List Nat)) (prev : List Nat), prev.length = 16 →
      (∀ b ∈ blocks, b.length = 16) →
      ∀ c ∈ cbcEncryptBlocks E prev blocks, c.length = 16 := by
  intro blocks
  induction blocks with
  | nil => intro prev _ _ c hc; simp [cbcEncryptBlocks] at hc
  | cons b bs ih =>
    intro prev hprev hblocks c hc
    have hb : b.length = 16 := hblocks b (by simp)
    have hxlen : (xorBytes b prev).length = 16 := by
      rw [xorBytes_length, hb, hprev]; simp
    simp only [cbcEncryptBlocks, List.mem_cons] at hc
    rcases hc with h | h
    · subst h; exact hLen _ hxlen
    · exact ih (E (xorBytes b prev)) (hLen _ hxlen) (fun x hx => hblocks x (by simp [hx])) c h

theorem cbcDecrypt_encrypt (E D : List Nat → List Nat)
    (hInv : ∀ b, b.length = 16 → D (E b) = b)
    (hLen : ∀ b, b.length = 16 → (E b).length = 16)
    (iv : List Nat) (hiv : iv.length = 16)
    (bs : List Nat) :
    cbcDecrypt D iv (cbcEncrypt E iv bs) = some bs := by
  unfold cbcEncrypt cbcDecrypt
  have hpadmod := pkcs7pad_length_mod bs
  have hblocks16 : ∀ b ∈ chunk16 (pkcs7pad bs), b.length = 16 := chunk16_len hpadmod
  have hencall : ∀ c ∈ cbcEncryptBlocks E iv (chunk16 (pkcs7pad bs)), c.length = 16 :=
    cbcEncryptBlocks_len E hLen _ iv hiv hblocks16
  have hctmod : (cbcEncryptBlocks E iv (chunk16 (pkcs7pad bs))).flatten.length % 16 = 0 :=
    flatten_length_16 hencall
  rw [if_pos hctmod, chunk16_flatten hencall,
    cbcDecryptBlocks_encryptBlocks E D hInv hLen _ iv hiv hblocks16,
    flatten_chunk16, pkcs7unpad_pad]

theorem cbcEncrypt_lt256 (E : List Nat → List Nat)
    (hLen : ∀ b, b.length = 16 → (E b).length = 16)
    (h256 : ∀ b, (∀ x ∈ b, x < 256) → ∀ x ∈ E b, x < 256)
    (iv : List Nat) (hiv : iv.length = 16) (hiv256 : ∀ x ∈ iv, x < 256)
    (bs : List Nat) (hbs : ∀ x ∈ bs, x < 256) :
    ∀ x ∈ cbcEncrypt E iv bs, x < 256 := by
  unfold cbcEncrypt
  have hpadmod := pkcs7pad_length_mod bs
  have hpad256 := pkcs7pad_lt256 hbs
  have hblocks : ∀ b ∈ chunk16 (pkcs7pad bs), b.length = 16 ∧ ∀ x ∈ b, x < 256 :=
    fun b hb => ⟨chunk16_len hpadmod b hb, chunk16_mem_lt256 hpad256 b hb⟩
  exact flatten_lt256 (fun c hc =>
    (cbcEncryptBlocks_spec E hLen h256 _ iv hiv hiv256 hblocks c hc).2)

theorem stripLit_self_append : ∀ (p l : List Char), stripLit p (p ++ l) = some l := by
  intro p
  induction p with
  | nil => intro l; rfl
  | cons c cs ih => intro l; simp [stripLit, ih]

theorem takeWhile_quote_of_clean {l : List Char} (h : ∀ c ∈ l, c ≠ '"') (r : List Char) :
    (l ++ '"' :: r).takeWhile (fun c => c ≠ '"') = l := by
  rw [List.takeWhile_append_of_pos (by
    intro a ha
    simp only [ne_eq, decide_not]
    simpa using h a ha)]
  simp [List.takeWhile_cons]

theorem dropWhile_quote_of_clean {l : List Char} (h : ∀ c ∈ l, c ≠ '"') (r : List Char) :
    (l ++ '"' :: r).dropWhile (fun c => c ≠ '"') = '"' :: r := by
  rw [List.dropWhile_append_of_pos (by
    intro a ha
    simp only [ne_eq, decide_not]
    simpa using h a ha)]
  simp [List.dropWhile_cons]

theorem parseEnvelope_stringify (iv ed : List Char)
    (hiv : ∀ c ∈ iv, c ≠ '"') (hed : ∀ c ∈ ed, c ≠ '"') :
    parseEnvelope (stringifyEnvelope ⟨iv, ed⟩) = some ⟨iv, ed⟩ := by
  have h2 : envLit2 = '"' :: (envLit2.drop 1) := by decide
  have h3 : envLit3 = '"' :: (envLit3.drop 1) := by decide
  unfold parseEnvelope stringifyEnvelope
  have hshape : envLit1 ++ iv ++ envLit2 ++ ed ++ envLit3 =
      envLit1 ++ (iv ++ ('"' :: ((envLit2.drop 1 ++ ed) ++ envLit3))) := by
    conv_lhs => rw [h2]
    simp [List.append_assoc]
  rw [hshape, stripLit_self_append]
  dsimp only
  have htk1 : (iv ++ ('"' :: ((envLit2.drop 1 ++ ed) ++ envLit3))).takeWhile
      (fun c => c ≠ '"') = iv := takeWhile_quote_of_clean hiv _
  have hdw1 : (iv ++ ('"' :: ((envLit2.drop 1 ++ ed) ++ envLit3))).dropWhile
      (fun c => c ≠ '"') = '"' :: ((envLit2.drop 1 ++ ed) ++ envLit3) :=
    dropWhile_quote_of_clean hiv _
  rw [htk1, hdw1]
  have hshape2 : ('"' : Char) :: ((envLit2.drop 1 ++ ed) ++ envLit3) =
      envLit2 ++ (ed ++ envLit3) := by
    conv_rhs => rw [h2]
    simp [List.append_assoc]
  rw [hshape2, stripLit_self_append]
  dsimp only
  have hshape3 : ed ++ envLit3 = ed ++ ('"' :: (envLit3.drop 1 ++ [])) := by
    conv_lhs => rw [h3]
    simp
  rw [hshape3]
  have htk2 : (ed ++ ('"' :: (envLit3.drop 1 ++ []))).takeWhile
      (fun c => c ≠ '"') = ed := takeWhile_quote_of_clean hed _
  have hdw2 : (ed ++ ('"' :: (envLit3.drop 1 ++ []))).dropWhile
      (fun c => c ≠ '"') = '"' :: (envLit3.drop 1 ++ []) :=
    dropWhile_quote_of_clean hed _
  rw [htk2, hdw2]
  have hshape4 : ('"' : Char) :: (envLit3.drop 1 ++ []) = envLit3 ++ [] := by
    conv_rhs => rw [h3]
    simp
  rw [hshape4, stripLit_self_append]
  dsimp only
  rfl

/-- C1: encrypting a string (of up to 1000 code points) with the note
cipher — AES-256-CBC under the configured key (folded into the block
permutation E) and configured IV, serialised as the JSON envelope of iv and
encryptedData that the pre-save hook stores — and then decrypting the
stored envelope with decryptPrivateNote returns exactly the original
string, for any block permutation D that inverts E on 16-byte blocks. -/
theorem c1_note_cipher_roundtrip (E D : List Nat → List Nat) (iv : List Nat)
    (hInv : ∀ b, b.length = 16 → D (E b) = b)
    (hLen : ∀ b, b.length = 16 → (E b).length = 16)
    (h256 : ∀ b, (∀ x ∈ b, x < 256) → ∀ x ∈ E b, x < 256)
    (hiv : iv.length = 16) (hiv256 : ∀ x ∈ iv, x < 256)
    (s : List Nat) (hcp : ∀ c ∈ s, c < 0x110000) (_hslen : s.length ≤ 1000) :
    decryptPrivateNote D (storedPrivateNote E iv s) = some s := by
  unfold storedPrivateNote decryptPrivateNote
  have hct256 : ∀ x ∈ cbcEncrypt E iv (utf8Encode s), x < 256 :=
    cbcEncrypt_lt256 E hLen h256 iv hiv hiv256 _ (utf8Encode_lt256 hcp)
  have hdata : (String.mk (stringifyEnvelope (encryptPrivateNote E iv s))).data =
      stringifyEnvelope (encryptPrivateNote E iv s) := rfl
  rw [hdata]
  have henv : parseEnvelope (stringifyEnvelope (encryptPrivateNote E iv s)) =
      some ⟨hexEncode iv, hexEncode (cbcEncrypt E iv (utf8Encode s))⟩ :=
    parseEnvelope_stringify _ _ (hexEncode_ne_quote hiv256) (hexEncode_ne_quote hct256)
  rw [henv]
  dsimp only
  rw [hexDecode_encode hiv256, hexDecode_encode hct256]
  dsimp only
  rw [cbcDecrypt_encrypt E D hInv hLen iv hiv]
  dsimp only
  exact utf8Decode_encode hcp

/-- Witness for C1 at a concrete instance: the identity block permutation
(a legitimate instantiation of the abstract AES-256 block cipher pair), a
16-byte IV of zeros and the two-code-point string "hi". -/
theorem c1_note_cipher_roundtrip_witness :
    decryptPrivateNote id (storedPrivateNote id (List.replicate 16 0) [104, 105]) =
      some [104, 105] :=
  c1_note_cipher_roundtrip id id (List.replicate 16 0)
    (fun _ _ => rfl) (fun _ h => h) (fun _ h => h)
    (by decide) (by decide) [104, 105] (by decide) (by decide)

/-! ## Mongoose document fields and casts -/

/-- Value of one path of a mongoose document: undefined (unset), null, or a
value. -/
inductive FVal (α : Type) where
  | undefined
  | null
  | val (a : α)
deriving DecidableEq, Repr

/-- Abbreviated mongoose CastError message for a Number path. -/
def castNumberMsg : String := "Cast to Number failed"

/-- Abbreviated mongoose CastError message for a Boolean path. -/
def castBooleanMsg : String := "Cast to Boolean failed"

/-- Abbreviated mongoose CastError message for a Date path (the stringified
invalid value makes the real message contain the text Invalid Date, which
is the property handleAddOrUpdateError keys on; the model tracks that
structurally instead). -/
def castDateMsg : String := "Cast to Date failed for value Invalid Date"

/-- Mongoose cast onto a String path with the schema's trim option: null
and undefined pass through, strings are trimmed, other values are
stringified. -/
def castString : JsVal → Except String (FVal String)
  | .undefined => .ok .undefined
  | .null => .ok .null
  | .str s => .ok (.val (jsTrim s))
  | .bool b => .ok (.val (if b then "true" else "false"))
  | .date n => .ok (.val (toString n))
  | .invalidDate => .ok (.val "Invalid Date")

/-- Mongoose cast onto a Number path: null/undefined pass through, the
empty string casts to null, a numeric string to its value, a boolean to
0/1, anything NaN is a CastError. -/
def castNumber : JsVal → Except String (FVal Int)
  | .undefined => .ok .undefined
  | .null => .ok .null
  | .str s =>
    if s = "" then .ok .null
    else
      match jsNumberStr s with
      | some n => .ok (.val n)
      | none => .error castNumberMsg
  | .bool b => .ok (.val (if b then 1 else 0))
  | .date n => .ok (.val n)
  | .invalidDate => .error castNumberMsg

/-- Mongoose cast onto a Boolean path: true/'true'/'1'/'yes' and
false/'false'/'0'/'no' are accepted, anything else is a CastError. -/
def castBoolean : JsVal → Except String (FVal Bool)
  | .undefined => .ok .undefined
  | .null => .ok .null
  | .bool b => .ok (.val b)
  | .str s =>
    if s = "true" ∨ s = "1" ∨ s = "yes" then .ok (.val true)
    else if s = "false" ∨ s = "0" ∨ s = "no" then .ok (.val false)
    else .error castBooleanMsg
  | .date _ => .error castBooleanMsg
  | .invalidDate => .error castBooleanMsg

/-- Mongoose cast onto a Date path (dates carried as milliseconds): the
empty string casts to null, a date string is parsed by the runtime's date
parser (the parseDate parameter), an Invalid Date value is a CastError. -/
def castDate (parseDate : String → Option Int) : JsVal → Except String (FVal Int)
  | .undefined => .ok .undefined
  | .null => .ok .null
  | .str s =>
    if s = "" then .ok .null
    else
      match parseDate s with
      | some n => .ok (.val n)
      | none => .error castDateMsg
  | .date n => .ok (.val n)
  | .invalidDate => .error castDateMsg
  | .bool _ => .error castDateMsg

/-- Cast value of a path, undefined when the cast failed (a path with a
cast error holds no value; sibling validators see undefined). -/
def valOf {α : Type} : Except String (FVal α) → FVal α
  | .ok v => v
  | .error _ => .undefined

/-- Mongoose schema default: applied when the assigned value is
undefined. -/
def applyDefault {α : Type} (d : α) : Except String (FVal α) → Except String (FVal α)
  | .ok .undefined => .ok (.val d)
  | v => v

/-! ## Request body and the controller's input normalisation -/

/-- Inbound create/update request body (§6: a field map of optional
strings) plus the optional uploaded image file. -/
structure ReqBody where
  title : JsVal := .undefined
  piecesNumber : JsVal := .undefined
  sizeHeight : JsVal := .undefined
  sizeWidth : JsVal := .undefined
  manufacturer : JsVal := .undefined
  lastPlayed : JsVal := .undefined
  location : JsVal := .undefined
  complete : JsVal := .undefined
  missingPiecesNumber : JsVal := .undefined
  privateNote : JsVal := .undefined
  sharedNote : JsVal := .undefined
  isPrivate : JsVal := .undefined
  isLentOut : JsVal := .undefined
  lentOutToString : JsVal := .undefined
  file : Option (List Nat) := none
deriving DecidableEq, Repr

/-- Normalised puzzle input as updatePuzzleInput returns it: the mutated
body fields plus the converted image. -/
structure PuzzleInput where
  title : JsVal
  piecesNumber : JsVal
  sizeHeight : JsVal
  sizeWidth : JsVal
  manufacturer : JsVal
  lastPlayed : JsVal
  location : JsVal
  complete : JsVal
  missingPiecesNumber : JsVal
  privateNote : JsVal
  sharedNote : JsVal
  isPrivate : JsVal
  isLentOut : JsVal
  lentOutToString : JsVal
  imageBinary : Option (List Nat)
deriving DecidableEq, Repr

/-- Message of isNumberFieldNumber for one offending field label. -/
def numberFieldMsg (label : String) : String :=
  "Det angivna värdet för \"" ++ label ++ "\" är inte ett giltigt nummer."

/-- Error thrown when the puzzle is lent out without a borrower name. -/
def lentOutRequiredMsg : String := "Namnet på den som har lånat pusslet måste anges."

/-- Error thrown when the title is missing. -/
def titleRequiredMsg : String := "Pusslets titel måste anges."

/-- Error thrown when more pieces are missing than the puzzle has. -/
def missingExceedsMsg : String := "Antalet saknade bitar kan inte vara fler än antalet bitar."

/-- Model of PuzzleController.isNumberFieldNumber (src/src/controllers/
puzzle-controller.js lines 814-832): each of the four numeric fields that
is present in the body and whose value is NaN raises the first error (the
real iteration follows the client's body key order; the model fixes the
schema order, which coincides for the claims considered since their
scenarios have a single offending field). -/
def isNumberFieldNumber (b : ReqBody) : Option String :=
  if b.piecesNumber ≠ .undefined ∧ isNaNJs b.piecesNumber = true then
    some (numberFieldMsg ("Antal bitar"))
  else if b.sizeHeight ≠ .undefined ∧ isNaNJs b.sizeHeight = true then
    some (numberFieldMsg ("Höjd"))
  else if b.sizeWidth ≠ .undefined ∧ isNaNJs b.sizeWidth = true then
    some (numberFieldMsg ("Bredd"))
  else if b.missingPiecesNumber ≠ .undefined ∧ isNaNJs b.missingPiecesNumber = true then
    some (numberFieldMsg ("Antal saknade bitar"))
  else none

/-- Model of PuzzleController.adjustTimeZone: new Date(value) then add two
hours; an unparsable string becomes an Invalid Date. -/
def adjustTimeZone (parseDate : String → Option Int) : JsVal → JsVal
  | .str s =>
    match parseDate s with
    | some n => .date (n + 7200000)
    | none => .invalidDate
  | .date n => .date (n + 7200000)
  | _ => .invalidDate

/-- Model of PuzzleController.updatePuzzleInput (src/src/controllers/
puzzle-controller.js lines 775-806): convert the image, check the numeric
fields, adjust the date, force complete/missingPiecesNumber when
piecesNumber is absent, clear missingPiecesNumber when complete is the
string true, clear lentOutToString when isLentOut is the string false, and
throw on a lent-out puzzle without borrower, a missing title, or more
missing pieces than pieces. -/
def updatePuzzleInput (pngOf : List Nat → List Nat) (parseDate : String → Option Int)
    (b : ReqBody) : Except String PuzzleInput :=
  let imageBinary := b.file.map pngOf
  match isNumberFieldNumber b with
  | some msg => .error msg
  | none =>
    let lastPlayed :=
      if truthy b.lastPlayed then adjustTimeZone parseDate b.lastPlayed else b.lastPlayed
    let complete := if truthy b.piecesNumber = false then JsVal.bool true else b.complete
    let missing0 :=
      if truthy b.piecesNumber = false then JsVal.str "" else b.missingPiecesNumber
    let missing := if complete = .str "true" then JsVal.str "" else missing0
    let lentOutToString :=
      if b.isLentOut = .str "false" then JsVal.null else b.lentOutToString
    if b.isLentOut = .str "true" ∧ truthy lentOutToString = false then
      .error lentOutRequiredMsg
    else if truthy b.title = false then
      .error titleRequiredMsg
    else if isNaNJs b.piecesNumber = false ∧ isNaNJs missing = false ∧
        ltNaN (parseIntJs b.piecesNumber) (parseIntJs missing) = true then
      .error missingExceedsMsg
    else
      .ok { title := b.title, piecesNumber := b.piecesNumber, sizeHeight := b.sizeHeight,
            sizeWidth := b.sizeWidth, manufacturer := b.manufacturer, lastPlayed := lastPlayed,
            location := b.location, complete := complete, missingPiecesNumber := missing,
            privateNote := b.privateNote, sharedNote := b.sharedNote,
            isPrivate := b.isPrivate, isLentOut := b.isLentOut,
            lentOutToString := lentOutToString, imageBinary := imageBinary }

/-! ## The Puzzle schema document -/

/-- Puzzle document under construction: one mongoose cast result per path
(a cast error is remembered and reported at validation time). -/
structure RawPuzzle where
  title : Except String (FVal String)
  piecesNumber : Except String (FVal Int)
  sizeHeight : Except String (FVal Int)
  sizeWidth : Except String (FVal Int)
  manufacturer : Except String (FVal String)
  lastPlayed : Except String (FVal Int)
  location : Except String (FVal String)
  complete : Except String (FVal Bool)
  missingPiecesNumber : Except String (FVal Int)
  privateNote : Except String (FVal String)
  sharedNote : Except String (FVal String)
  isPrivate : Except String (FVal Bool)
  isLentOut : Except String (FVal Bool)
  lentOutToString : Except String (FVal String)
  image : Option (List Nat)
  owner : String

/-- Validated puzzle document as it is persisted. -/
structure PuzzleDoc where
  title : FVal String
  piecesNumber : FVal Int
  sizeHeight : FVal Int
  sizeWidth : FVal Int
  manufacturer : FVal String
  lastPlayed : FVal Int
  location : FVal String
  complete : FVal Bool
  missingPiecesNumber : FVal Int
  privateNote : FVal String
  sharedNote : FVal String
  isPrivate : FVal Bool
  isLentOut : FVal Bool
  lentOutToString : FVal String
  image : Option (List Nat)
  owner : String
deriving DecidableEq, Repr

/-- JavaScript truthiness of a numeric document field (null and undefined
are falsy, 0 is falsy). -/
def fvalNumTruthy : FVal Int → Bool
  | .val n => n ≠ 0
  | _ => false

/-- JavaScript truthiness of a string document field. -/
def fvalStrTruthy : FVal String → Bool
  | .val s => s ≠ ""
  | _ => false

/-- JavaScript `value > 0` on a document field (null and undefined compare
false). -/
def fvalNumGtZero : FVal Int → Bool
  | .val n => 0 < n
  | _ => false

/-- JavaScript `m < pieces` inside the missingPiecesNumber validator
(null coerces to 0, undefined compares false). -/
def ltPieces (m : Int) : FVal Int → Bool
  | .val p => m < p
  | .null => m < 0
  | .undefined => false

/-- Document string field read back as a JavaScript value. -/
def fvalToJs : FVal String → JsVal
  | .undefined => .undefined
  | .null => .null
  | .val s => .str s

/-! ## The schema's per-path validation (src/src/models/puzzle.js) -/

/-- Character class of the title/location regex:
letters (incl. the accented set), digits, space and -.,:;! -/
def allowedChar (c : Char) : Bool :=
  decide (('a' ≤ c ∧ c ≤ 'z') ∨ ('A' ≤ c ∧ c ≤ 'Z') ∨ ('0' ≤ c ∧ c ≤ '9')) ||
    ("åäöÅÄÖéóèòáà-.,:;! ".toList.contains c)

/-- Message of the title character-class validator. -/
def titleFormatMsg : String :=
  "Titeln får endast innehålla bokstäver, siffror, mellanslag och följande tecken: -.,:;!"

/-- Message of the title maxLength bound. -/
def titleMaxMsg : String := "Titeln får inte innehålla fler än 100 tecken."

/-- Default mongoose message of the required check on title. -/
def titleReqMsg : String := "Path `title` is required."

/-- Message of the piecesNumber range validator. -/
def piecesRangeMsg : String := "Antalet bitar måste vara ett heltal mellan 2 och 20 000."

/-- Message of the sizeHeight pairing/range validator. -/
def sizeHeightMsg : String :=
  "Om höjd anges måste även bredd anges. Höjden får inte vara större än 100 000."

/-- Message of the sizeWidth pairing/range validator. -/
def sizeWidthMsg : String :=
  "Om bredd anges måste även höjd anges. Bredden får inte vara större än 100 000."

/-- Message of the manufacturer maxLength bound. -/
def manufacturerMaxMsg : String := "Tillverkarens namn får inte innehålla fler än 50 tecken."

/-- Message of the location maxLength bound. -/
def locationMaxMsg : String :=
  "Namnet på platsen där pusslet förvaras får inte innehålla fler än 100 tecken."

/-- Message of the complete/missingPiecesNumber consistency validator. -/
def completeMsg : String := "Om pusslet inte är komplett måste antalet saknade bitar anges."

/-- Message of the missingPiecesNumber range validator. -/
def missingRangeMsg : String :=
  "Antalet saknade bitar måste vara ett heltal mellan 1 och antalet bitar i pusslet."

/-- Message of the privateNote maxLength bound. -/
def privateNoteMaxMsg : String :=
  "Den privata anteckningen får inte innehålla fler än 1 000 tecken."

/-- Message of the sharedNote maxLength bound. -/
def sharedNoteMaxMsg : String :=
  "Den delade anteckningen får inte innehålla fler än 1 000 tecken."

/-- Message of the isLentOut/lentOutToString consistency validator. -/
def isLentOutMsg : String :=
  "Om pusslet är utlånat måste även namnet på personen som pusslet är utlånat till anges."

/-- Message of the lentOutToString maxLength bound. -/
def lentOutToStringMaxMsg : String :=
  "Namnet på personen som pusslet är utlånat till får inte innehålla fler än 50 tecken."

/-- First failing check of the title path: cast, required, the character
class regex, then maxLength 100. -/
def titleError (t : Except String (FVal String)) : Option String :=
  match t with
  | .error m => some m
  | .ok .undefined => some titleReqMsg
  | .ok .null => some titleReqMsg
  | .ok (.val s) =>
    if s = "" then some titleReqMsg
    else if (s.data.all allowedChar) = false then some titleFormatMsg
    else if 100 < s.length then some titleMaxMsg
    else none

/-- First failing check of the piecesNumber path: null passes explicitly,
a value must lie in 2..20000. -/
def piecesNumberError (v : Except String (FVal Int)) : Option String :=
  match v with
  | .error m => some m
  | .ok .undefined => none
  | .ok .null => none
  | .ok (.val n) => if 2 ≤ n ∧ n ≤ 20000 then none else some piecesRangeMsg

/-- First failing check of a size path, with the sibling size value: the
validator of the source evaluated under JavaScript coercions (null
compares as 0, truthiness of the sibling decides the pairing). -/
def sizeError (v : Except String (FVal Int)) (w : FVal Int) (msg : String) : Option String :=
  match v with
  | .error m => some m
  | .ok .undefined => none
  | .ok .null => if fvalNumTruthy w then some msg else none
  | .ok (.val h) =>
    if ((1 ≤ h ∧ h ≤ 100000) ∧ ¬(h ≠ 0 ∧ fvalNumTruthy w = false)) ∨
        (h = 0 ∧ fvalNumTruthy w = false) then none
    else some msg

/-- First failing check of a plain string path with only a maxLength
bound. -/
def maxLengthError (v : Except String (FVal String)) (mx : Nat) (msg : String) : Option String :=
  match v with
  | .error m => some m
  | .ok (.val s) => if s.length ≤ mx then none else some msg
  | _ => none

/-- First failing check of the complete path, with the sibling
missingPiecesNumber value. -/
def completeError (v : Except String (FVal Bool)) (missing : FVal Int) : Option String :=
  match v with
  | .error m => some m
  | .ok .undefined => none
  | .ok .null => none
  | .ok (.val b) =>
    if b = false ∧ fvalNumTruthy missing = false then some completeMsg else none

/-- First failing check of the missingPiecesNumber path, with the sibling
piecesNumber value. -/
def missingError (v : Except String (FVal Int)) (pieces : FVal Int) : Option String :=
  match v with
  | .error m => some m
  | .ok .undefined => none
  | .ok .null => none
  | .ok (.val m) => if 1 ≤ m ∧ ltPieces m pieces then none else some missingRangeMsg

/-- First failing check of the isLentOut path, with the sibling
lentOutToString value. -/
def isLentOutError (v : Except String (FVal Bool)) (lent : FVal String) : Option String :=
  match v with
  | .error m => some m
  | .ok .undefined => none
  | .ok .null => none
  | .ok (.val b) =>
    if b = true ∧ fvalStrTruthy lent = false then some isLentOutMsg else none

/-- The only possible failure on a validator-free path is its cast. -/
def castOnlyError {α : Type} (v : Except String (FVal α)) : Option String :=
  match v with
  | .error m => some m
  | .ok _ => none

/-- All validation messages of a document, one per failing path, in schema
declaration order (the shape of the mongoose ValidationError the save
rejects with). -/
def validationErrors (r : RawPuzzle) : List String :=
  List.filterMap id
    [titleError r.title,
     piecesNumberError r.piecesNumber,
     sizeError r.sizeHeight (valOf r.sizeWidth) sizeHeightMsg,
     sizeError r.sizeWidth (valOf r.sizeHeight) sizeWidthMsg,
     maxLengthError r.manufacturer 50 manufacturerMaxMsg,
     castOnlyError r.lastPlayed,
     maxLengthError r.location 100 locationMaxMsg,
     completeError r.complete (valOf r.missingPiecesNumber),
     missingError r.missingPiecesNumber (valOf r.piecesNumber),
     maxLengthError r.privateNote 1000 privateNoteMaxMsg,
     maxLengthError r.sharedNote 1000 sharedNoteMaxMsg,
     castOnlyError r.isPrivate,
     isLentOutError r.isLentOut (valOf r.lentOutToString),
     maxLengthError r.lentOutToString 50 lentOutToStringMaxMsg]

/-- Whether the lastPlayed path failed its Date cast (in the real error
text this surfaces as the substring Invalid Date). -/
def hasInvalidDate (r : RawPuzzle) : Bool :=
  match r.lastPlayed with
  | .error _ => true
  | .ok _ => false

/-- Document committed from its raw cast results (applied only when
validation produced no message, so no path is in cast error). -/
def commitPuzzle (r : RawPuzzle) : PuzzleDoc :=
  { title := valOf r.title, piecesNumber := valOf r.piecesNumber,
    sizeHeight := valOf r.sizeHeight, sizeWidth := valOf r.sizeWidth,
    manufacturer := valOf r.manufacturer, lastPlayed := valOf r.lastPlayed,
    location := valOf r.location, complete := valOf r.complete,
    missingPiecesNumber := valOf r.missingPiecesNumber,
    privateNote := valOf r.privateNote, sharedNote := valOf r.sharedNote,
    isPrivate := valOf r.isPrivate, isLentOut := valOf r.isLentOut,
    lentOutToString := valOf r.lentOutToString, image := r.image, owner := r.owner }

/-- Model of the pre-save hook (src/src/models/puzzle.js lines 273-289):
force complete to false when missingPiecesNumber is positive, then encrypt
a truthy private note into its stored envelope. -/
def schemaPreSave (E : List Nat → List Nat) (iv : List Nat) (d : PuzzleDoc) : PuzzleDoc :=
  let d1 := if fvalNumGtZero d.missingPiecesNumber then { d with complete := .val false } else d
  match d1.privateNote with
  | .val s =>
    if s ≠ "" then
      { d1 with privateNote := .val (storedPrivateNote E iv (s.data.map Char.toNat)) }
    else d1
  | _ => d1

/-- Error surfaced by a create/update pipeline before the response is
formed: a controller throw, or the mongoose ValidationError of the save. -/
inductive SaveError where
  | thrown (msg : String)
  | validation (errs : List String) (invalidDate : Bool)
deriving DecidableEq, Repr

/-- Model of a document save: mongoose validation runs first (it is the
first pre-save hook), then the schema's own pre-save hook, then the
document is persisted. -/
def savePuzzle (E : List Nat → List Nat) (iv : List Nat) (r : RawPuzzle) :
    Except SaveError PuzzleDoc :=
  let errs := validationErrors r
  if errs = [] then .ok (schemaPreSave E iv (commitPuzzle r))
  else .error (.validation errs (hasInvalidDate r))

/-! ## The controller actions (src/src/controllers/puzzle-controller.js) -/

/-- New Puzzle document as addPuzzle constructs it (lines 490-509): the
spread-conditional fields are set only when truthy, isPrivate and
isLentOut fall back to their schema defaults when undefined, the image is
the converted binary, the owner is the authenticated caller. -/
def newPuzzleDoc (parseDate : String → Option Int) (inp : PuzzleInput) (ownerId : String) :
    RawPuzzle :=
  { title := castString inp.title,
    piecesNumber :=
      if truthy inp.piecesNumber then castNumber inp.piecesNumber else .ok .undefined,
    sizeHeight := if truthy inp.sizeHeight then castNumber inp.sizeHeight else .ok .undefined,
    sizeWidth := if truthy inp.sizeWidth then castNumber inp.sizeWidth else .ok .undefined,
    manufacturer :=
      if truthy inp.manufacturer then castString inp.manufacturer else .ok .undefined,
    lastPlayed := castDate parseDate inp.lastPlayed,
    location := if truthy inp.location then castString inp.location else .ok .undefined,
    complete := castBoolean inp.complete,
    missingPiecesNumber :=
      if truthy inp.missingPiecesNumber then castNumber inp.missingPiecesNumber
      else .ok .undefined,
    privateNote := castString inp.privateNote,
    sharedNote := castString inp.sharedNote,
    isPrivate := applyDefault true (castBoolean inp.isPrivate),
    isLentOut := applyDefault false (castBoolean inp.isLentOut),
    lentOutToString :=
      if truthy inp.lentOutToString then castString inp.lentOutToString else .ok .undefined,
    image := inp.imageBinary,
    owner := ownerId }

/-- Field assignments of updatePuzzle over the loaded document
(lines 605-620): title falls back to the previous title, most scalars fall
back to the empty string (clearing them), missingPiecesNumber falls back
to null, complete/isPrivate/isLentOut are taken verbatim, lentOutToString
is nulled whenever the just-assigned isLentOut is not truthy, and the
image falls back to the previously stored image. -/
def applyUpdate (parseDate : String → Option Int) (prev : PuzzleDoc) (inp : PuzzleInput) :
    RawPuzzle :=
  let isLentOutNew := castBoolean inp.isLentOut
  let lentTruthy : Bool :=
    match isLentOutNew with
    | .ok (.val true) => true
    | .ok _ => false
    | .error _ => decide (prev.isLentOut = .val true)
  { title := castString (jsOr inp.title (fvalToJs prev.title)),
    piecesNumber := castNumber (jsOr inp.piecesNumber (.str "")),
    sizeHeight := castNumber (jsOr inp.sizeHeight (.str "")),
    sizeWidth := castNumber (jsOr inp.sizeWidth (.str "")),
    manufacturer := castString (jsOr inp.manufacturer (.str "")),
    lastPlayed := castDate parseDate (jsOr inp.lastPlayed (.str "")),
    location := castString (jsOr inp.location (.str "")),
    complete := castBoolean inp.complete,
    missingPiecesNumber :=
      castNumber (if truthy inp.missingPiecesNumber then inp.missingPiecesNumber else .null),
    privateNote := castString (jsOr inp.privateNote (.str "")),
    sharedNote := castString (jsOr inp.sharedNote (.str "")),
    isPrivate := castBoolean inp.isPrivate,
    isLentOut := isLentOutNew,
    lentOutToString :=
      if lentTruthy then castString (jsOr inp.lentOutToString (fvalToJs prev.lentOutToString))
      else .ok .null,
    image :=
      match inp.imageBinary with
      | some b => some b
      | none => prev.image,
    owner := prev.owner }

/-- Message substituted for the sharp buffer overflow on oversized
images. -/
def offsetOutOfBoundsMsg : String := "offset is out of bounds"

/-- User-facing message for an oversized image. -/
def imageTooLargeMsg : String := "Bilden är för stor, max 10 MB."

/-- User-facing message for an invalid date. -/
def invalidDateMsg : String := "Datumet är ogiltigt."

/-- Messages thrown by the controller itself that handleAddOrUpdateError
recognises via its includes checks. -/
def controllerThrownMsgs : List String :=
  [numberFieldMsg ("Antal bitar"), numberFieldMsg ("Höjd"), numberFieldMsg ("Bredd"),
   numberFieldMsg ("Antal saknade bitar"), lentOutRequiredMsg, titleRequiredMsg,
   missingExceedsMsg]

/-- Response of a failed create/update: an HTTP status and the list of
user-facing messages. -/
structure ErrorResponse where
  status : Nat
  messages : List String
deriving DecidableEq, Repr

/-- Model of PuzzleController.handleAddOrUpdateError (lines 734-766): a
recognised controller throw and a mongoose validation failure become a
400 with the message list — one message per failed schema path, except
that an invalid date collapses the list to the single date message; the
sharp overflow becomes the image-too-large message; anything else passes
through as a server fault. -/
def handleAddOrUpdateError : SaveError → ErrorResponse
  | .thrown msg =>
    if msg ∈ controllerThrownMsgs then ⟨400, [msg]⟩
    else if msg = offsetOutOfBoundsMsg then ⟨400, [imageTooLargeMsg]⟩
    else ⟨500, [msg]⟩
  | .validation errs invalidDate =>
    if invalidDate then ⟨400, [invalidDateMsg]⟩ else ⟨400, errs⟩

/-- Response of a successful create: status 201, the body of the JSON
response modelled by its optional id property and its message. -/
structure CreateResponse where
  status : Nat
  id : Option String
  message : String
deriving DecidableEq, Repr

/-- Success message of addPuzzle. -/
def puzzleAddedMsg : String := "Puzzle added successfully."

/-- Success message of updatePuzzle. -/
def puzzleUpdatedMsg : String := "Puzzle updated successfully."

/-- Outcome of the create pipeline: the response together with the
persisted document, or the error response. -/
inductive AddOutcome where
  | success (resp : CreateResponse) (stored : PuzzleDoc)
  | failure (resp : ErrorResponse)
deriving DecidableEq, Repr

/-- Model of PuzzleController.addPuzzle (lines 486-516): normalise the
input, build the new document, save it, and answer 201 with a message
only — the response body carries no id property. -/
def addPuzzle (pngOf : List Nat → List Nat) (parseDate : String → Option Int)
    (E : List Nat → List Nat) (iv : List Nat) (b : ReqBody) (ownerId : String) : AddOutcome :=
  match updatePuzzleInput pngOf parseDate b with
  | .error msg => .failure (handleAddOrUpdateError (.thrown msg))
  | .ok inp =>
    match savePuzzle E iv (newPuzzleDoc parseDate inp ownerId) with
    | .error e => .failure (handleAddOrUpdateError e)
    | .ok stored => .success ⟨201, none, puzzleAddedMsg⟩ stored

/-- Response of a successful update. -/
structure UpdateResponse where
  status : Nat
  message : String
deriving DecidableEq, Repr

/-- Outcome of the update pipeline. -/
inductive UpdateOutcome where
  | success (resp : UpdateResponse) (stored : PuzzleDoc)
  | failure (resp : ErrorResponse)
deriving DecidableEq, Repr

/-- Model of PuzzleController.updatePuzzle (lines 600-627): normalise the
input, overwrite the loaded document's fields, save, and answer 200. -/
def updatePuzzle (pngOf : List Nat → List Nat) (parseDate : String → Option Int)
    (E : List Nat → List Nat) (iv : List Nat) (prev : PuzzleDoc) (b : ReqBody) :
    UpdateOutcome :=
  match updatePuzzleInput pngOf parseDate b with
  | .error msg => .failure (handleAddOrUpdateError (.thrown msg))
  | .ok inp =>
    match savePuzzle E iv (applyUpdate parseDate prev inp) with
    | .error e => .failure (handleAddOrUpdateError e)
    | .ok stored => .success ⟨200, puzzleUpdatedMsg⟩ stored

/-- Stored document of a create outcome, when it succeeded. -/
def AddOutcome.storedOf : AddOutcome → Option PuzzleDoc
  | .success _ d => some d
  | .failure _ => none

/-- Success response of a create outcome. -/
def AddOutcome.respOf : AddOutcome → Option CreateResponse
  | .success r _ => some r
  | .failure _ => none

/-- Error response of a create outcome. -/
def AddOutcome.failureOf : AddOutcome → Option ErrorResponse
  | .success _ _ => none
  | .failure r => some r

/-- Stored document of an update outcome, when it succeeded. -/
def UpdateOutcome.storedOf : UpdateOutcome → Option PuzzleDoc
  | .success _ d => some d
  | .failure _ => none

/-- Error response of an update outcome. -/
def UpdateOutcome.failureOf : UpdateOutcome → Option ErrorResponse
  | .success _ _ => none
  | .failure r => some r

/-! ## loadPuzzle (the by-id gate of Read, Update and Delete) -/

/-- Hexadecimal character class of the id shape check. -/
def isHexChar (c : Char) : Bool :=
  decide (('0' ≤ c ∧ c ≤ '9') ∨ ('a' ≤ c ∧ c ≤ 'f') ∨ ('A' ≤ c ∧ c ≤ 'F'))

/-- The id shape regex of loadPuzzle: exactly 24 hexadecimal characters. -/
def is24Hex (s : String) : Bool :=
  decide (s.length = 24) && s.data.all isHexChar

/-- Message of the invalid-identifier rejection. -/
def invalidIdMsg : String := "Invalid id"

/-- Message of the not-found rejection. -/
def puzzleNotFoundMsg : String := "Puzzle not found"

/-- Outcome of loading a puzzle by id. -/
inductive LoadOutcome where
  | invalidId (status : Nat) (msg : String)
  | notFound (status : Nat) (msg : String)
  | loaded (p : PuzzleDoc)
deriving DecidableEq, Repr

/-- Model of PuzzleController.loadPuzzle (lines 526-545): reject an id
that is not 24 hex characters with a 400 before consulting the store
(modelled by quantifying over an arbitrary store), then look the id up
and reject a miss with a 404. -/
def loadPuzzle (store : String → Option PuzzleDoc) (id : String) : LoadOutcome :=
  if is24Hex id = false then .invalidId 400 invalidIdMsg
  else
    match store id with
    | none => .notFound 404 puzzleNotFoundMsg
    | some p => .loaded p

/-! ## User authentication (src/src/models/user.js) -/

/-- Stored user record: the username and the bcrypt password hash. -/
structure UserDoc where
  username : String
  password : String
deriving DecidableEq, Repr

/-- The single error message of a failed authentication. -/
def invalidCredentialsMsg : String := "Felaktiga uppgifter. Vänligen testa igen."

/-- Model of User.authenticate (src/src/models/user.js lines 58-67) over
an abstract user store (findOne by username) and an abstract bcrypt
comparison: one throw site covers both the missing user and the failed
comparison. -/
def authenticate (store : String → Option UserDoc) (compare : String → String → Bool)
    (username password : String) : Except String UserDoc :=
  match store username with
  | none => .error invalidCredentialsMsg
  | some user =>
    if compare password user.password then .ok user else .error invalidCredentialsMsg

/-- Username normalisation of UserController.loginPost: trim then
lowercase. -/
def normalizeUsername (u : String) : String := jsToLower (jsTrim u)

/-- Authentication as the login route performs it: on the normalised
username. -/
def loginAuthenticate (store : String → Option UserDoc) (compare : String → String → Bool)
    (username password : String) : Except String UserDoc :=
  authenticate store compare (normalizeUsername username) password

/-! ## Stage lemmas for the lifecycle pipeline -/

theorem updatePuzzleInput_ok_spec {pngOf : List Nat → List Nat} {parseDate : String → Option Int}
    {b : ReqBody} {inp : PuzzleInput}
    (h : updatePuzzleInput pngOf parseDate b = .ok inp) :
    inp.title = b.title ∧ inp.piecesNumber = b.piecesNumber ∧
    inp.sizeHeight = b.sizeHeight ∧ inp.sizeWidth = b.sizeWidth ∧
    inp.manufacturer = b.manufacturer ∧ inp.location = b.location ∧
    inp.privateNote = b.privateNote ∧ inp.sharedNote = b.sharedNote ∧
    inp.isPrivate = b.isPrivate ∧ inp.isLentOut = b.isLentOut ∧
    inp.lastPlayed =
      (if truthy b.lastPlayed then adjustTimeZone parseDate b.lastPlayed else b.lastPlayed) ∧
    inp.complete = (if truthy b.piecesNumber = false then JsVal.bool true else b.complete) ∧
    inp.missingPiecesNumber =
      (if (if truthy b.piecesNumber = false then JsVal.bool true else b.complete) = .str "true"
        then JsVal.str ""
        else if truthy b.piecesNumber = false then JsVal.str "" else b.missingPiecesNumber) ∧
    inp.lentOutToString =
      (if b.isLentOut = .str "false" then JsVal.null else b.lentOutToString) ∧
    inp.imageBinary = b.file.map pngOf := by
  unfold updatePuzzleInput at h
  try dsimp only at h
  repeat' split at h
  all_goals
    first
      | (injection h with h
         subst h
         simp_all)
      | exact absurd h (by simp)

theorem savePuzzle_ok {E : List Nat → List Nat} {iv : List Nat} {r : RawPuzzle} {d : PuzzleDoc}
    (h : savePuzzle E iv r = .ok d) : d = schemaPreSave E iv (commitPuzzle r) := by
  unfold savePuzzle at h
  try dsimp only at h
  split at h
  · injection h with h
    exact h.symm
  · exact absurd h (by simp)

theorem schemaPreSave_spec (E : List Nat → List Nat) (iv : List Nat) (d : PuzzleDoc) :
    (schemaPreSave E iv d).title = d.title ∧
    (schemaPreSave E iv d).piecesNumber = d.piecesNumber ∧
    (schemaPreSave E iv d).sizeHeight = d.sizeHeight ∧
    (schemaPreSave E iv d).sizeWidth = d.sizeWidth ∧
    (schemaPreSave E iv d).manufacturer = d.manufacturer ∧
    (schemaPreSave E iv d).lastPlayed = d.lastPlayed ∧
    (schemaPreSave E iv d).location = d.location ∧
    (schemaPreSave E iv d).complete =
      (if fvalNumGtZero d.missingPiecesNumber then FVal.val false else d.complete) ∧
    (schemaPreSave E iv d).missingPiecesNumber = d.missingPiecesNumber ∧
    (schemaPreSave E iv d).sharedNote = d.sharedNote ∧
    (schemaPreSave E iv d).isPrivate = d.isPrivate ∧
    (schemaPreSave E iv d).isLentOut = d.isLentOut ∧
    (schemaPreSave E iv d).lentOutToString = d.lentOutToString ∧
    (schemaPreSave E iv d).image = d.image ∧
    (schemaPreSave E iv d).owner = d.owner := by
  unfold schemaPreSave
  try dsimp only
  split_ifs with hg <;> (split <;> (try split_ifs) <;> simp_all)

theorem schemaPreSave_privateNote_not_truthy (E : List Nat → List Nat) (iv : List Nat)
    (d : PuzzleDoc) (h : fvalStrTruthy d.privateNote = false) :
    (schemaPreSave E iv d).privateNote = d.privateNote := by
  unfold schemaPreSave
  try dsimp only
  split_ifs with hg <;> (split <;> (try split_ifs) <;> simp_all [fvalStrTruthy])

/-! ## The claims -/

/-- C7: an identifier that is not exactly 24 hexadecimal characters is
rejected by loadPuzzle — the by-id gate shared by Read, Update and
Delete — with the 400 invalid-id error for every possible store, i.e.
before any storage lookup; an identifier of the correct shape that
resolves to no record fails with the 404 not-found error. -/
theorem c7_load_by_id_gate (id : String) :
    (is24Hex id = false →
      ∀ store : String → Option PuzzleDoc, loadPuzzle store id = .invalidId 400 invalidIdMsg) ∧
    (is24Hex id = true → ∀ store : String → Option PuzzleDoc, store id = none →
      loadPuzzle store id = .notFound 404 puzzleNotFoundMsg) := by
  constructor
  · intro h store
    simp [loadPuzzle, h]
  · intro h store hs
    simp [loadPuzzle, h, hs]

/-- Witness for C7: a malformed identifier is rejected as invalid for a
concrete empty store, and a well-formed unknown identifier is not
found. -/
theorem c7_load_by_id_gate_witness :
    loadPuzzle (fun _ => none) ("not-a-valid-identifier!!") = .invalidId 400 invalidIdMsg ∧
    loadPuzzle (fun _ => none) ("0123456789abcdef01234567") = .notFound 404 puzzleNotFoundMsg :=
  ⟨(c7_load_by_id_gate ("not-a-valid-identifier!!")).1 (by decide) _,
   (c7_load_by_id_gate ("0123456789abcdef01234567")).2 (by decide) _ rfl⟩

/-- C9: authentication on the normalised username fails with the one
InvalidCredentials error in both failure cases — unknown user and wrong
password — so the two are indistinguishable to the caller, and succeeds
exactly when the user exists and the hash comparison succeeds. -/
theorem c9_authenticate_uniform_failure
    (store : String → Option UserDoc) (compare : String → String → Bool) (u p : String) :
    (store (normalizeUsername u) = none →
      loginAuthenticate store compare u p = .error invalidCredentialsMsg) ∧
    (∀ doc, store (normalizeUsername u) = some doc → compare p doc.password = false →
      loginAuthenticate store compare u p = .error invalidCredentialsMsg) ∧
    (∀ doc, store (normalizeUsername u) = some doc → compare p doc.password = true →
      loginAuthenticate store compare u p = .ok doc) := by
  refine ⟨?_, ?_, ?_⟩
  · intro h
    simp [loginAuthenticate, authenticate, h]
  · intro doc h hc
    simp [loginAuthenticate, authenticate, h, hc]
  · intro doc h hc
    simp [loginAuthenticate, authenticate, h, hc]

/-- Witness for C9: a one-user store compared with string equality — the
unknown user and the wrong password produce the identical error value,
the correct pair authenticates. -/
theorem c9_authenticate_uniform_failure_witness :
    loginAuthenticate (fun u => if u = "anna" then some ⟨"anna", "h4sh"⟩ else none)
      (fun p h => p == h) ("Okänd") ("lösenord123") = .error invalidCredentialsMsg ∧
    loginAuthenticate (fun u => if u = "anna" then some ⟨"anna", "h4sh"⟩ else none)
      (fun p h => p == h) (" Anna ") ("fel") = .error invalidCredentialsMsg ∧
    loginAuthenticate (fun u => if u = "anna" then some ⟨"anna", "h4sh"⟩ else none)
      (fun p h => p == h) (" Anna ") ("h4sh") = .ok ⟨"anna", "h4sh"⟩ :=
  ⟨(c9_authenticate_uniform_failure (fun u => if u = "anna" then some ⟨"anna", "h4sh"⟩ else none)
      (fun p h => p == h) ("Okänd") ("lösenord123")).1 (by decide),
   (c9_authenticate_uniform_failure (fun u => if u = "anna" then some ⟨"anna", "h4sh"⟩ else none)
      (fun p h => p == h) (" Anna ") ("fel")).2.1 ⟨"anna", "h4sh"⟩ (by decide) (by decide),
   (c9_authenticate_uniform_failure (fun u => if u = "anna" then some ⟨"anna", "h4sh"⟩ else none)
      (fun p h => p == h) (" Anna ") ("h4sh")).2.2 ⟨"anna", "h4sh"⟩ (by decide) (by decide)⟩

/-- C10: the note cipher is deterministic — the IV is process-wide
configuration, not per-call randomness, so two encryptions of equal
plaintexts under the same configuration yield byte-identical envelopes and
byte-identical stored strings, and every envelope carries the configured
IV. -/
theorem c10_encryption_deterministic (E : List Nat → List Nat) (iv : List Nat)
    (s₁ s₂ : List Nat) (h : s₁ = s₂) :
    storedPrivateNote E iv s₁ = storedPrivateNote E iv s₂ ∧
    encryptPrivateNote E iv s₁ = encryptPrivateNote E iv s₂ ∧
    (encryptPrivateNote E iv s₁).iv = hexEncode iv := by
  subst h
  exact ⟨rfl, rfl, rfl⟩

/-- Witness for C10 at a concrete instance: two saves of the same
two-byte note under the zero IV store the same envelope. -/
theorem c10_encryption_deterministic_witness :
    storedPrivateNote id (List.replicate 16 0) [104, 105] =
      storedPrivateNote id (List.replicate 16 0) [104, 105] ∧
    encryptPrivateNote id (List.replicate 16 0) [104, 105] =
      encryptPrivateNote id (List.replicate 16 0) [104, 105] ∧
    (encryptPrivateNote id (List.replicate 16 0) [104, 105]).iv =
      hexEncode (List.replicate 16 0) :=
  c10_encryption_deterministic id (List.replicate 16 0) [104, 105] [104, 105] rfl

/-- C8 counterexample: a fully valid create request succeeds with status
201 at a concrete input, yet the JSON response body carries no id
property — only the success message — so the Create operation does not
return the new record's identifier. -/
theorem c8_counterexample :
    (addPuzzle id (fun _ => none) id (List.replicate 16 0)
      { title := .str "Pussel" } ("u1")).respOf =
      some { status := 201, id := none, message := puzzleAddedMsg } := by decide

/-- C8 amended: every successful Create answers status 201 with the
success message only; the response never contains the new record's
identifier. -/
theorem c8_create_response_has_no_id (pngOf : List Nat → List Nat)
    (parseDate : String → Option Int) (E : List Nat → List Nat) (iv : List Nat)
    (b : ReqBody) (ownerId : String) :
    (addPuzzle pngOf parseDate E iv b ownerId).respOf.all
      (fun r => r.status == 201 && r.id == none && r.message == puzzleAddedMsg) = true := by
  cases h1 : updatePuzzleInput pngOf parseDate b with
  | error m => simp [addPuzzle, h1, AddOutcome.respOf]
  | ok inp =>
    cases h2 : savePuzzle E iv (newPuzzleDoc parseDate inp ownerId) with
    | error e => simp [addPuzzle, h1, h2, AddOutcome.respOf]
    | ok d => simp [addPuzzle, h1, h2, AddOutcome.respOf, Option.all]

theorem savePuzzle_missing_invariant {E : List Nat → List Nat} {iv : List Nat}
    {r : RawPuzzle} {d : PuzzleDoc} (h : savePuzzle E iv r = .ok d)
    (hgt : fvalNumGtZero d.missingPiecesNumber = true) : d.complete = FVal.val false := by
  have hd := savePuzzle_ok h
  subst hd
  obtain ⟨-, -, -, -, -, -, -, hc, hm, -, -, -, -, -, -⟩ :=
    schemaPreSave_spec E iv (commitPuzzle r)
  rw [hm] at hgt
  rw [hc, if_pos hgt]

theorem input_complete_true {pngOf : List Nat → List Nat} {parseDate : String → Option Int}
    {b : ReqBody} {inp : PuzzleInput}
    (h : updatePuzzleInput pngOf parseDate b = .ok inp) (hc : b.complete = .str "true") :
    inp.missingPiecesNumber = JsVal.str "" ∧
      (inp.complete = JsVal.bool true ∨ inp.complete = JsVal.str "true") := by
  obtain ⟨-, -, -, -, -, -, -, -, -, -, -, hcomp, hmiss, -, -⟩ := updatePuzzleInput_ok_spec h
  by_cases hp : truthy b.piecesNumber = false
  · rw [if_pos hp] at hcomp
    rw [if_pos hp, if_pos hp] at hmiss
    refine ⟨?_, Or.inl hcomp⟩
    simpa using hmiss
  · rw [if_neg hp] at hcomp
    rw [if_neg hp] at hmiss
    rw [hc] at hcomp hmiss
    refine ⟨?_, Or.inr hcomp⟩
    simpa using hmiss

theorem input_pieces_falsy {pngOf : List Nat → List Nat} {parseDate : String → Option Int}
    {b : ReqBody} {inp : PuzzleInput}
    (h : updatePuzzleInput pngOf parseDate b = .ok inp) (hp : truthy b.piecesNumber = false) :
    inp.missingPiecesNumber = JsVal.str "" ∧ inp.complete = JsVal.bool true := by
  obtain ⟨-, -, -, -, -, -, -, -, -, -, -, hcomp, hmiss, -, -⟩ := updatePuzzleInput_ok_spec h
  rw [if_pos hp] at hcomp
  rw [if_pos hp, if_pos hp] at hmiss
  exact ⟨by simpa using hmiss, hcomp⟩

theorem stored_complete_true_create {parseDate : String → Option Int}
    {E : List Nat → List Nat} {iv : List Nat} {inp : PuzzleInput} {ownerId : String}
    {d : PuzzleDoc}
    (hm : inp.missingPiecesNumber = JsVal.str "")
    (hcomp : inp.complete = JsVal.bool true ∨ inp.complete = JsVal.str "true")
    (h : savePuzzle E iv (newPuzzleDoc parseDate inp ownerId) = .ok d) :
    d.complete = FVal.val true ∧
      (d.missingPiecesNumber = FVal.undefined ∨ d.missingPiecesNumber = FVal.null) := by
  have hd := savePuzzle_ok h
  subst hd
  obtain ⟨-, -, -, -, -, -, -, hc, hmm, -, -, -, -, -, -⟩ :=
    schemaPreSave_spec E iv (commitPuzzle (newPuzzleDoc parseDate inp ownerId))
  have htr : truthy (JsVal.str "") = false := by decide
  have hrawm : (commitPuzzle (newPuzzleDoc parseDate inp ownerId)).missingPiecesNumber
      = FVal.undefined := by
    simp [commitPuzzle, newPuzzleDoc, hm, htr, valOf]
  have hrawc : (commitPuzzle (newPuzzleDoc parseDate inp ownerId)).complete
      = FVal.val true := by
    rcases hcomp with h1 | h1 <;>
      simp [commitPuzzle, newPuzzleDoc, h1, castBoolean, valOf]
  refine ⟨?_, ?_⟩
  · rw [hc, hrawm]
    simpa [fvalNumGtZero] using hrawc
  · rw [hmm, hrawm]
    exact Or.inl rfl

theorem stored_complete_true_update {parseDate : String → Option Int}
    {E : List Nat → List Nat} {iv : List Nat} {prev : PuzzleDoc} {inp : PuzzleInput}
    {d : PuzzleDoc}
    (hm : inp.missingPiecesNumber = JsVal.str "")
    (hcomp : inp.complete = JsVal.bool true ∨ inp.complete = JsVal.str "true")
    (h : savePuzzle E iv (applyUpdate parseDate prev inp) = .ok d) :
    d.complete = FVal.val true ∧
      (d.missingPiecesNumber = FVal.undefined ∨ d.missingPiecesNumber = FVal.null) := by
  have hd := savePuzzle_ok h
  subst hd
  obtain ⟨-, -, -, -, -, -, -, hc, hmm, -, -, -, -, -, -⟩ :=
    schemaPreSave_spec E iv (commitPuzzle (applyUpdate parseDate prev inp))
  have htr : truthy (JsVal.str "") = false := by decide
  have hrawm : (commitPuzzle (applyUpdate parseDate prev inp)).missingPiecesNumber
      = FVal.null := by
    simp [commitPuzzle, applyUpdate, hm, htr, valOf, castNumber]
  have hrawc : (commitPuzzle (applyUpdate parseDate prev inp)).complete
      = FVal.val true := by
    rcases hcomp with h1 | h1 <;>
      simp [commitPuzzle, applyUpdate, h1, castBoolean, valOf]
  refine ⟨?_, ?_⟩
  · rw [hc, hrawm]
    simpa [fvalNumGtZero] using hrawc
  · rw [hmm, hrawm]
    exact Or.inr rfl

/-- Sample stored puzzle used as the previously loaded record of the
update witnesses. -/
def samplePrev : PuzzleDoc :=
  { title := .val "Gammal", piecesNumber := .val 500,
    sizeHeight := .null, sizeWidth := .null, manufacturer := .val "Ravensburger",
    lastPlayed := .null, location := .val "Hyllan", complete := .val true,
    missingPiecesNumber := .null, privateNote := .val "", sharedNote := .val "",
    isPrivate := .val true, isLentOut := .val false, lentOutToString := .null,
    image := some [9, 9, 9], owner := "u1" }

/-- C2 counterexample: a create request supplying missingPiecesNumber 10
(positive) together with complete true (the boolean-ish string of the
inbound field map, §6) succeeds, and the record persisted by the save has
complete = true — not false as the claim states — because
updatePuzzleInput clears missingPiecesNumber before the save. -/
theorem c2_counterexample :
    ((addPuzzle id (fun _ => none) id (List.replicate 16 0)
      { title := .str "Pussel", piecesNumber := .str "500",
        missingPiecesNumber := .str "10", complete := .str "true" } ("u1")).storedOf.map
      (fun d => (d.complete, d.missingPiecesNumber))) =
      some (FVal.val true, FVal.undefined) := by decide

/-- C2 amended: the derived invariant missingPiecesNumber > 0 implies
complete = false holds for every record persisted by Create or Update
(the pre-save hook enforces it); but when complete is supplied as the
string true together with a positive missingPiecesNumber, the controller
clears missingPiecesNumber, so the persisted record has complete = true
and an empty missingPiecesNumber instead of complete = false. -/
theorem c2_missing_pieces_rule (pngOf : List Nat → List Nat) (parseDate : String → Option Int)
    (E : List Nat → List Nat) (iv : List Nat) (b : ReqBody) (ownerId : String)
    (prev : PuzzleDoc) :
    ((addPuzzle pngOf parseDate E iv b ownerId).storedOf.all
        (fun d => !fvalNumGtZero d.missingPiecesNumber || d.complete == FVal.val false)
        = true ∧
      (updatePuzzle pngOf parseDate E iv prev b).storedOf.all
        (fun d => !fvalNumGtZero d.missingPiecesNumber || d.complete == FVal.val false)
        = true) ∧
    (b.complete = .str "true" →
      (addPuzzle pngOf parseDate E iv b ownerId).storedOf.all
        (fun d => d.complete == FVal.val true &&
          (d.missingPiecesNumber == FVal.undefined || d.missingPiecesNumber == FVal.null))
        = true ∧
      (updatePuzzle pngOf parseDate E iv prev b).storedOf.all
        (fun d => d.complete == FVal.val true &&
          (d.missingPiecesNumber == FVal.undefined || d.missingPiecesNumber == FVal.null))
        = true) := by
  constructor
  · constructor
    · cases h1 : updatePuzzleInput pngOf parseDate b with
      | error m => simp [addPuzzle, h1, AddOutcome.storedOf]
      | ok inp =>
        cases h2 : savePuzzle E iv (newPuzzleDoc parseDate inp ownerId) with
        | error e => simp [addPuzzle, h1, h2, AddOutcome.storedOf]
        | ok d =>
          simp only [addPuzzle, h1, h2, AddOutcome.storedOf, Option.all_some]
          by_cases hg : fvalNumGtZero d.missingPiecesNumber = true
          · simp [hg, savePuzzle_missing_invariant h2 hg]
          · simp [Bool.not_eq_true] at hg
            simp [hg]
    · cases h1 : updatePuzzleInput pngOf parseDate b with
      | error m => simp [updatePuzzle, h1, UpdateOutcome.storedOf]
      | ok inp =>
        cases h2 : savePuzzle E iv (applyUpdate parseDate prev inp) with
        | error e => simp [updatePuzzle, h1, h2, UpdateOutcome.storedOf]
        | ok d =>
          simp only [updatePuzzle, h1, h2, UpdateOutcome.storedOf, Option.all_some]
          by_cases hg : fvalNumGtZero d.missingPiecesNumber = true
          · simp [hg, savePuzzle_missing_invariant h2 hg]
          · simp [Bool.not_eq_true] at hg
            simp [hg]
  · intro hc
    constructor
    · cases h1 : updatePuzzleInput pngOf parseDate b with
      | error m => simp [addPuzzle, h1, AddOutcome.storedOf]
      | ok inp =>
        cases h2 : savePuzzle E iv (newPuzzleDoc parseDate inp ownerId) with
        | error e => simp [addPuzzle, h1, h2, AddOutcome.storedOf]
        | ok d =>
          obtain ⟨hm, hcb⟩ := input_complete_true h1 hc
          obtain ⟨hdc, hdm⟩ := stored_complete_true_create hm hcb h2
          simp only [addPuzzle, h1, h2, AddOutcome.storedOf, Option.all_some]
          rcases hdm with h | h <;> simp [hdc, h]
    · cases h1 : updatePuzzleInput pngOf parseDate b with
      | error m => simp [updatePuzzle, h1, UpdateOutcome.storedOf]
      | ok inp =>
        cases h2 : savePuzzle E iv (applyUpdate parseDate prev inp) with
        | error e => simp [updatePuzzle, h1, h2, UpdateOutcome.storedOf]
        | ok d =>
          obtain ⟨hm, hcb⟩ := input_complete_true h1 hc
          obtain ⟨hdc, hdm⟩ := stored_complete_true_update hm hcb h2
          simp only [updatePuzzle, h1, h2, UpdateOutcome.storedOf, Option.all_some]
          rcases hdm with h | h <;> simp [hdc, h]

/-- Witness for C2 at concrete inputs: a create with complete supplied as
the string true and missingPiecesNumber 10 persists (non-vacuously) a
record with complete = true and missingPiecesNumber empty, and a create
with a positive missingPiecesNumber that survives to the save persists
complete = false. -/
theorem c2_missing_pieces_rule_witness :
    ((addPuzzle id (fun _ => none) id (List.replicate 16 0)
        { title := .str "Pussel", piecesNumber := .str "500",
          missingPiecesNumber := .str "10", complete := .str "true" } ("u1")).storedOf.all
      (fun d => d.complete == FVal.val true &&
        (d.missingPiecesNumber == FVal.undefined || d.missingPiecesNumber == FVal.null))
      = true) ∧
    ((addPuzzle id (fun _ => none) id (List.replicate 16 0)
        { title := .str "Pussel", piecesNumber := .str "500",
          missingPiecesNumber := .str "10", complete := .str "true" } ("u1")).storedOf.isSome
      = true) ∧
    ((addPuzzle id (fun _ => none) id (List.replicate 16 0)
        { title := .str "Pussel", piecesNumber := .str "500",
          missingPiecesNumber := .str "10" } ("u1")).storedOf.map (fun d => d.complete)
      = some (FVal.val false)) :=
  ⟨((c2_missing_pieces_rule id (fun _ => none) id (List.replicate 16 0)
      { title := .str "Pussel", piecesNumber := .str "500",
        missingPiecesNumber := .str "10", complete := .str "true" } ("u1") samplePrev).2
      rfl).1,
   by decide, by decide⟩

/-- C3: when piecesNumber is absent (or empty, i.e. not truthy), every
record persisted by Create or Update has complete = true and an empty
missingPiecesNumber, regardless of the caller-supplied complete and
missingPiecesNumber values. -/
theorem c3_absent_pieces_forces_complete (pngOf : List Nat → List Nat)
    (parseDate : String → Option Int) (E : List Nat → List Nat) (iv : List Nat)
    (b : ReqBody) (ownerId : String) (prev : PuzzleDoc)
    (hp : truthy b.piecesNumber = false) :
    (addPuzzle pngOf parseDate E iv b ownerId).storedOf.all
      (fun d => d.complete == FVal.val true &&
        (d.missingPiecesNumber == FVal.undefined || d.missingPiecesNumber == FVal.null))
      = true ∧
    (updatePuzzle pngOf parseDate E iv prev b).storedOf.all
      (fun d => d.complete == FVal.val true &&
        (d.missingPiecesNumber == FVal.undefined || d.missingPiecesNumber == FVal.null))
      = true := by
  constructor
  · cases h1 : updatePuzzleInput pngOf parseDate b with
    | error m => simp [addPuzzle, h1, AddOutcome.storedOf]
    | ok inp =>
      cases h2 : savePuzzle E iv (newPuzzleDoc parseDate inp ownerId) with
      | error e => simp [addPuzzle, h1, h2, AddOutcome.storedOf]
      | ok d =>
        obtain ⟨hm, hcb⟩ := input_pieces_falsy h1 hp
        obtain ⟨hdc, hdm⟩ := stored_complete_true_create hm (Or.inl hcb) h2
        simp only [addPuzzle, h1, h2, AddOutcome.storedOf, Option.all_some]
        rcases hdm with h | h <;> simp [hdc, h]
  · cases h1 : updatePuzzleInput pngOf parseDate b with
    | error m => simp [updatePuzzle, h1, UpdateOutcome.storedOf]
    | ok inp =>
      cases h2 : savePuzzle E iv (applyUpdate parseDate prev inp) with
      | error e => simp [updatePuzzle, h1, h2, UpdateOutcome.storedOf]
      | ok d =>
        obtain ⟨hm, hcb⟩ := input_pieces_falsy h1 hp
        obtain ⟨hdc, hdm⟩ := stored_complete_true_update hm (Or.inl hcb) h2
        simp only [updatePuzzle, h1, h2, UpdateOutcome.storedOf, Option.all_some]
        rcases hdm with h | h <;> simp [hdc, h]

/-- Witness for C3 at a concrete input: piecesNumber absent while the
caller supplies complete = false and missingPiecesNumber = 7; the create
succeeds (non-vacuously) and both the create and the update persist
complete = true with missingPiecesNumber empty. -/
theorem c3_absent_pieces_forces_complete_witness :
    ((addPuzzle id (fun _ => none) id (List.replicate 16 0)
        { title := .str "Pussel", complete := .str "false",
          missingPiecesNumber := .str "7" } ("u1")).storedOf.all
      (fun d => d.complete == FVal.val true &&
        (d.missingPiecesNumber == FVal.undefined || d.missingPiecesNumber == FVal.null))
      = true ∧
    (updatePuzzle id (fun _ => none) id (List.replicate 16 0) samplePrev
        { title := .str "Pussel", complete := .str "false",
          missingPiecesNumber := .str "7" }).storedOf.all
      (fun d => d.complete == FVal.val true &&
        (d.missingPiecesNumber == FVal.undefined || d.missingPiecesNumber == FVal.null))
      = true) ∧
    ((addPuzzle id (fun _ => none) id (List.replicate 16 0)
        { title := .str "Pussel", complete := .str "false",
          missingPiecesNumber := .str "7" } ("u1")).storedOf.isSome = true) :=
  ⟨c3_absent_pieces_forces_complete id (fun _ => none) id (List.replicate 16 0)
      { title := .str "Pussel", complete := .str "false", missingPiecesNumber := .str "7" }
      ("u1") samplePrev (by decide),
   by decide⟩

/-- C4: on every successful Update, each scalar field omitted from the
request — manufacturer, location, sharedNote, privateNote, piecesNumber,
sizeHeight, sizeWidth, lastPlayed — ends up cleared (empty string for the
string fields, null for the numeric and date fields) rather than keeping
its previous value, field by field and independently of which other
fields the request supplies; and an omitted image keeps the previously
stored image unchanged. -/
theorem c4_update_clears_omitted_scalars (pngOf : List Nat → List Nat)
    (parseDate : String → Option Int) (E : List Nat → List Nat) (iv : List Nat)
    (prev : PuzzleDoc) (b : ReqBody) :
    (b.manufacturer = .undefined →
      (updatePuzzle pngOf parseDate E iv prev b).storedOf.all
        (fun d => d.manufacturer == FVal.val "") = true) ∧
    (b.location = .undefined →
      (updatePuzzle pngOf parseDate E iv prev b).storedOf.all
        (fun d => d.location == FVal.val "") = true) ∧
    (b.sharedNote = .undefined →
      (updatePuzzle pngOf parseDate E iv prev b).storedOf.all
        (fun d => d.sharedNote == FVal.val "") = true) ∧
    (b.privateNote = .undefined →
      (updatePuzzle pngOf parseDate E iv prev b).storedOf.all
        (fun d => d.privateNote == FVal.val "") = true) ∧
    (b.piecesNumber = .undefined →
      (updatePuzzle pngOf parseDate E iv prev b).storedOf.all
        (fun d => d.piecesNumber == FVal.null) = true) ∧
    (b.sizeHeight = .undefined →
      (updatePuzzle pngOf parseDate E iv prev b).storedOf.all
        (fun d => d.sizeHeight == FVal.null) = true) ∧
    (b.sizeWidth = .undefined →
      (updatePuzzle pngOf parseDate E iv prev b).storedOf.all
        (fun d => d.sizeWidth == FVal.null) = true) ∧
    (b.lastPlayed = .undefined →
      (updatePuzzle pngOf parseDate E iv prev b).storedOf.all
        (fun d => d.lastPlayed == FVal.null) = true) ∧
    (b.file = none →
      (updatePuzzle pngOf parseDate E iv prev b).storedOf.all
        (fun d => d.image == prev.image) = true) := by
  cases h1 : updatePuzzleInput pngOf parseDate b with
  | error m =>
    refine ⟨?_, ?_, ?_, ?_, ?_, ?_, ?_, ?_, ?_⟩ <;> intro _ <;>
      simp [updatePuzzle, h1, UpdateOutcome.storedOf]
  | ok inp =>
    cases h2 : savePuzzle E iv (applyUpdate parseDate prev inp) with
    | error e =>
      refine ⟨?_, ?_, ?_, ?_, ?_, ?_, ?_, ?_, ?_⟩ <;> intro _ <;>
        simp [updatePuzzle, h1, h2, UpdateOutcome.storedOf]
    | ok d =>
      obtain ⟨-, hpieces', hh', hw', hman', hloc', hpriv', hshared', -, -, hlp', -, -, -,
        himg⟩ := updatePuzzleInput_ok_spec h1
      have hd := savePuzzle_ok h2
      subst hd
      obtain ⟨-, hP, hH, hW, hM, hL, hLoc, -, -, hS, -, -, -, hI, -⟩ :=
        schemaPreSave_spec E iv (commitPuzzle (applyUpdate parseDate prev inp))
      have htrim : jsTrim ("") = ("" : String) := by decide
      have hjs : jsOr JsVal.undefined (JsVal.str "") = JsVal.str "" := by decide
      have hcast0 : castNumber (JsVal.str "") = .ok FVal.null := rfl
      have hcastd : castDate parseDate (JsVal.str "") = .ok FVal.null := by
        simp [castDate]
      refine ⟨?_, ?_, ?_, ?_, ?_, ?_, ?_, ?_, ?_⟩
      · intro hx
        rw [hx] at hman'
        have e1 : (commitPuzzle (applyUpdate parseDate prev inp)).manufacturer
            = FVal.val "" := by
          simp [commitPuzzle, applyUpdate, hman', hjs, castString, valOf, htrim]
        simp only [updatePuzzle, h1, h2, UpdateOutcome.storedOf, Option.all_some]
        simp [hM, e1]
      · intro hx
        rw [hx] at hloc'
        have e2 : (commitPuzzle (applyUpdate parseDate prev inp)).location = FVal.val "" := by
          simp [commitPuzzle, applyUpdate, hloc', hjs, castString, valOf, htrim]
        simp only [updatePuzzle, h1, h2, UpdateOutcome.storedOf, Option.all_some]
        simp [hLoc, e2]
      · intro hx
        rw [hx] at hshared'
        have e3 : (commitPuzzle (applyUpdate parseDate prev inp)).sharedNote
            = FVal.val "" := by
          simp [commitPuzzle, applyUpdate, hshared', hjs, castString, valOf, htrim]
        simp only [updatePuzzle, h1, h2, UpdateOutcome.storedOf, Option.all_some]
        simp [hS, e3]
      · intro hx
        rw [hx] at hpriv'
        have e4 : (commitPuzzle (applyUpdate parseDate prev inp)).privateNote
            = FVal.val "" := by
          simp [commitPuzzle, applyUpdate, hpriv', hjs, castString, valOf, htrim]
        have epriv : (schemaPreSave E iv
            (commitPuzzle (applyUpdate parseDate prev inp))).privateNote = FVal.val "" := by
          rw [schemaPreSave_privateNote_not_truthy E iv _ (by rw [e4]; rfl), e4]
        simp only [updatePuzzle, h1, h2, UpdateOutcome.storedOf, Option.all_some]
        simp [epriv]
      · intro hx
        rw [hx] at hpieces'
        have e5 : (commitPuzzle (applyUpdate parseDate prev inp)).piecesNumber
            = FVal.null := by
          simp [commitPuzzle, applyUpdate, hpieces', hjs, hcast0, valOf]
        simp only [updatePuzzle, h1, h2, UpdateOutcome.storedOf, Option.all_some]
        simp [hP, e5]
      · intro hx
        rw [hx] at hh'
        have e6 : (commitPuzzle (applyUpdate parseDate prev inp)).sizeHeight
            = FVal.null := by
          simp [commitPuzzle, applyUpdate, hh', hjs, hcast0, valOf]
        simp only [updatePuzzle, h1, h2, UpdateOutcome.storedOf, Option.all_some]
        simp [hH, e6]
      · intro hx
        rw [hx] at hw'
        have e7 : (commitPuzzle (applyUpdate parseDate prev inp)).sizeWidth = FVal.null := by
          simp [commitPuzzle, applyUpdate, hw', hjs, hcast0, valOf]
        simp only [updatePuzzle, h1, h2, UpdateOutcome.storedOf, Option.all_some]
        simp [hW, e7]
      · intro hx
        rw [hx] at hlp'
        simp only [truthy, Bool.false_eq_true, if_false] at hlp'
        have e8 : (commitPuzzle (applyUpdate parseDate prev inp)).lastPlayed
            = FVal.null := by
          simp [commitPuzzle, applyUpdate, hlp', hjs, hcastd, valOf]
        simp only [updatePuzzle, h1, h2, UpdateOutcome.storedOf, Option.all_some]
        simp [hL, e8]
      · intro hx
        rw [hx] at himg
        simp only [Option.map_none'] at himg
        have e9 : (commitPuzzle (applyUpdate parseDate prev inp)).image = prev.image := by
          simp [commitPuzzle, applyUpdate, himg]
        simp only [updatePuzzle, h1, h2, UpdateOutcome.storedOf, Option.all_some]
        simp [hI, e9]

/-- Witness for C4 at a concrete partial update: the request supplies a
new title, piecesNumber and location but omits manufacturer, sharedNote,
privateNote, sizeHeight, sizeWidth, lastPlayed and the image; the update
succeeds (non-vacuously), each omitted scalar is cleared and the image is
kept. -/
theorem c4_update_clears_omitted_scalars_witness :
    ((updatePuzzle id (fun _ => none) id (List.replicate 16 0) samplePrev
        { title := .str "Ny titel", piecesNumber := .str "500",
          location := .str "Vinden" }).storedOf.all
      (fun d => d.manufacturer == FVal.val "") = true) ∧
    ((updatePuzzle id (fun _ => none) id (List.replicate 16 0) samplePrev
        { title := .str "Ny titel", piecesNumber := .str "500",
          location := .str "Vinden" }).storedOf.all
      (fun d => d.sharedNote == FVal.val "") = true) ∧
    ((updatePuzzle id (fun _ => none) id (List.replicate 16 0) samplePrev
        { title := .str "Ny titel", piecesNumber := .str "500",
          location := .str "Vinden" }).storedOf.all
      (fun d => d.privateNote == FVal.val "") = true) ∧
    ((updatePuzzle id (fun _ => none) id (List.replicate 16 0) samplePrev
        { title := .str "Ny titel", piecesNumber := .str "500",
          location := .str "Vinden" }).storedOf.all
      (fun d => d.sizeHeight == FVal.null) = true) ∧
    ((updatePuzzle id (fun _ => none) id (List.replicate 16 0) samplePrev
        { title := .str "Ny titel", piecesNumber := .str "500",
          location := .str "Vinden" }).storedOf.all
      (fun d => d.sizeWidth == FVal.null) = true) ∧
    ((updatePuzzle id (fun _ => none) id (List.replicate 16 0) samplePrev
        { title := .str "Ny titel", piecesNumber := .str "500",
          location := .str "Vinden" }).storedOf.all
      (fun d => d.lastPlayed == FVal.null) = true) ∧
    ((updatePuzzle id (fun _ => none) id (List.replicate 16 0) samplePrev
        { title := .str "Ny titel", piecesNumber := .str "500",
          location := .str "Vinden" }).storedOf.all
      (fun d => d.image == samplePrev.image) = true) ∧
    ((updatePuzzle id (fun _ => none) id (List.replicate 16 0) samplePrev
        { title := .str "Ny titel", piecesNumber := .str "500",
          location := .str "Vinden" }).storedOf.isSome = true) :=
  ⟨(c4_update_clears_omitted_scalars id (fun _ => none) id (List.replicate 16 0) samplePrev
      { title := .str "Ny titel", piecesNumber := .str "500",
        location := .str "Vinden" }).1 rfl,
   (c4_update_clears_omitted_scalars id (fun _ => none) id (List.replicate 16 0) samplePrev
      { title := .str "Ny titel", piecesNumber := .str "500",
        location := .str "Vinden" }).2.2.1 rfl,
   (c4_update_clears_omitted_scalars id (fun _ => none) id (List.replicate 16 0) samplePrev
      { title := .str "Ny titel", piecesNumber := .str "500",
        location := .str "Vinden" }).2.2.2.1 rfl,
   (c4_update_clears_omitted_scalars id (fun _ => none) id (List.replicate 16 0) samplePrev
      { title := .str "Ny titel", piecesNumber := .str "500",
        location := .str "Vinden" }).2.2.2.2.2.1 rfl,
   (c4_update_clears_omitted_scalars id (fun _ => none) id (List.replicate 16 0) samplePrev
      { title := .str "Ny titel", piecesNumber := .str "500",
        location := .str "Vinden" }).2.2.2.2.2.2.1 rfl,
   (c4_update_clears_omitted_scalars id (fun _ => none) id (List.replicate 16 0) samplePrev
      { title := .str "Ny titel", piecesNumber := .str "500",
        location := .str "Vinden" }).2.2.2.2.2.2.2.1 rfl,
   (c4_update_clears_omitted_scalars id (fun _ => none) id (List.replicate 16 0) samplePrev
      { title := .str "Ny titel", piecesNumber := .str "500",
        location := .str "Vinden" }).2.2.2.2.2.2.2.2 rfl,
   by decide⟩

theorem updatePuzzleInput_lentout_throw {pngOf : List Nat → List Nat}
    {parseDate : String → Option Int} {b : ReqBody}
    (hn : isNumberFieldNumber b = none) (hl : b.isLentOut = .str "true")
    (hlt : truthy b.lentOutToString = false) :
    updatePuzzleInput pngOf parseDate b = .error lentOutRequiredMsg := by
  unfold updatePuzzleInput
  rw [hn]
  try dsimp only
  have h1 : ¬(b.isLentOut = JsVal.str "false") := by
    rw [hl]
    simp
  rw [if_neg h1, if_pos ⟨hl, hlt⟩]

theorem isNumberFieldNumber_mem {b : ReqBody} {m : String}
    (h : isNumberFieldNumber b = some m) : m ∈ controllerThrownMsgs := by
  unfold isNumberFieldNumber at h
  split_ifs at h
  all_goals
    injection h with h
    subst h
    decide

theorem updatePuzzleInput_number_throw {pngOf : List Nat → List Nat}
    {parseDate : String → Option Int} {b : ReqBody} {m : String}
    (h : isNumberFieldNumber b = some m) :
    updatePuzzleInput pngOf parseDate b = .error m := by
  unfold updatePuzzleInput
  rw [h]

theorem updatePuzzleInput_error_mem {pngOf : List Nat → List Nat}
    {parseDate : String → Option Int} {b : ReqBody} {m : String}
    (h : updatePuzzleInput pngOf parseDate b = .error m) : m ∈ controllerThrownMsgs := by
  unfold updatePuzzleInput at h
  cases hn : isNumberFieldNumber b with
  | some msg =>
    rw [hn] at h
    try dsimp only at h
    injection h with h
    subst h
    exact isNumberFieldNumber_mem hn
  | none =>
    rw [hn] at h
    try dsimp only at h
    repeat' split at h
    all_goals first
      | (injection h with h
         subst h
         decide)
      | exact absurd h (by simp)

/-- C6: every request with isLentOut supplied as the string true and an
absent or empty lentOutToString is rejected by both Create and Update with
a 400 validation error carrying a single message (the numeric pre-check
message when a numeric field is malformed, otherwise exactly the
borrower-required message); and a request with isLentOut supplied as the
string false stores an empty/null lentOutToString even when the caller
supplied a non-empty one. -/
theorem c6_lent_out_consistency (pngOf : List Nat → List Nat)
    (parseDate : String → Option Int) (E : List Nat → List Nat) (iv : List Nat)
    (b : ReqBody) (ownerId : String) (prev : PuzzleDoc) :
    (b.isLentOut = .str "true" → truthy b.lentOutToString = false →
      ((addPuzzle pngOf parseDate E iv b ownerId).failureOf.map
        (fun r => (r.status, r.messages.length)) = some (400, 1)) ∧
      ((updatePuzzle pngOf parseDate E iv prev b).failureOf.map
        (fun r => (r.status, r.messages.length)) = some (400, 1)) ∧
      (isNumberFieldNumber b = none →
        addPuzzle pngOf parseDate E iv b ownerId
          = .failure { status := 400, messages := [lentOutRequiredMsg] } ∧
        updatePuzzle pngOf parseDate E iv prev b
          = .failure { status := 400, messages := [lentOutRequiredMsg] })) ∧
    (b.isLentOut = .str "false" →
      (addPuzzle pngOf parseDate E iv b ownerId).storedOf.all
        (fun d => d.lentOutToString == FVal.undefined || d.lentOutToString == FVal.null)
        = true ∧
      (updatePuzzle pngOf parseDate E iv prev b).storedOf.all
        (fun d => d.lentOutToString == FVal.undefined || d.lentOutToString == FVal.null)
        = true) := by
  constructor
  · intro hl hlt
    cases hn : isNumberFieldNumber b with
    | some m =>
      have he := @updatePuzzleInput_number_throw pngOf parseDate b m hn
      have hmem := isNumberFieldNumber_mem hn
      have hh : handleAddOrUpdateError (.thrown m) = { status := 400, messages := [m] } := by
        unfold handleAddOrUpdateError
        dsimp only
        rw [if_pos hmem]
      refine ⟨?_, ?_, ?_⟩
      · simp [addPuzzle, he, hh, AddOutcome.failureOf]
      · simp [updatePuzzle, he, hh, UpdateOutcome.failureOf]
      · intro hn2
        exact absurd hn2 (by simp)
    | none =>
      have he := @updatePuzzleInput_lentout_throw pngOf parseDate b hn hl hlt
      have hh : handleAddOrUpdateError (.thrown lentOutRequiredMsg)
          = { status := 400, messages := [lentOutRequiredMsg] } := by decide
      refine ⟨?_, ?_, fun _ => ⟨?_, ?_⟩⟩
      · simp [addPuzzle, he, hh, AddOutcome.failureOf]
      · simp [updatePuzzle, he, hh, UpdateOutcome.failureOf]
      · simp [addPuzzle, he, hh]
      · simp [updatePuzzle, he, hh]
  · intro hf
    constructor
    · cases h1 : updatePuzzleInput pngOf parseDate b with
      | error m => simp [addPuzzle, h1, AddOutcome.storedOf]
      | ok inp =>
        cases h2 : savePuzzle E iv (newPuzzleDoc parseDate inp ownerId) with
        | error e => simp [addPuzzle, h1, h2, AddOutcome.storedOf]
        | ok d =>
          obtain ⟨-, -, -, -, -, -, -, -, -, -, -, -, -, hls, -⟩ :=
            updatePuzzleInput_ok_spec h1
          rw [if_pos hf] at hls
          have hd := savePuzzle_ok h2
          subst hd
          obtain ⟨-, -, -, -, -, -, -, -, -, -, -, -, hLS, -, -⟩ :=
            schemaPreSave_spec E iv (commitPuzzle (newPuzzleDoc parseDate inp ownerId))
          have ec : (commitPuzzle (newPuzzleDoc parseDate inp ownerId)).lentOutToString
              = FVal.undefined := by
            simp [commitPuzzle, newPuzzleDoc, hls, truthy, valOf]
          simp only [addPuzzle, h1, h2, AddOutcome.storedOf, Option.all_some]
          simp [hLS, ec]
    · cases h1 : updatePuzzleInput pngOf parseDate b with
      | error m => simp [updatePuzzle, h1, UpdateOutcome.storedOf]
      | ok inp =>
        cases h2 : savePuzzle E iv (applyUpdate parseDate prev inp) with
        | error e => simp [updatePuzzle, h1, h2, UpdateOutcome.storedOf]
        | ok d =>
          obtain ⟨-, -, -, -, -, -, -, -, -, hlio, -, -, -, -, -⟩ :=
            updatePuzzleInput_ok_spec h1
          rw [hf] at hlio
          have hd := savePuzzle_ok h2
          subst hd
          obtain ⟨-, -, -, -, -, -, -, -, -, -, -, -, hLS, -, -⟩ :=
            schemaPreSave_spec E iv (commitPuzzle (applyUpdate parseDate prev inp))
          have hcb : castBoolean (JsVal.str "false") = .ok (.val false) := rfl
          have ec : (commitPuzzle (applyUpdate parseDate prev inp)).lentOutToString
              = FVal.null := by
            simp [commitPuzzle, applyUpdate, hlio, hcb, valOf]
          simp only [updatePuzzle, h1, h2, UpdateOutcome.storedOf, Option.all_some]
          simp [hLS, ec]

/-- Witness for C6 at concrete inputs: a lent-out create without a
borrower is rejected with exactly the borrower-required message; the same
request with an additionally malformed numeric field is still rejected
with a single 400 message; and a create with isLentOut false but a
supplied borrower name stores an empty/null lentOutToString
(non-vacuously). -/
theorem c6_lent_out_consistency_witness :
    (addPuzzle id (fun _ => none) id (List.replicate 16 0)
        { title := .str "Pussel", isLentOut := .str "true" } ("u1")
      = .failure { status := 400, messages := [lentOutRequiredMsg] }) ∧
    ((addPuzzle id (fun _ => none) id (List.replicate 16 0)
        { title := .str "Pussel", piecesNumber := .str "abc",
          isLentOut := .str "true" } ("u1")).failureOf.map
      (fun r => (r.status, r.messages.length)) = some (400, 1)) ∧
    ((addPuzzle id (fun _ => none) id (List.replicate 16 0)
        { title := .str "Pussel", isLentOut := .str "false",
          lentOutToString := .str "Alice" } ("u1")).storedOf.all
      (fun d => d.lentOutToString == FVal.undefined || d.lentOutToString == FVal.null)
      = true) ∧
    ((addPuzzle id (fun _ => none) id (List.replicate 16 0)
        { title := .str "Pussel", isLentOut := .str "false",
          lentOutToString := .str "Alice" } ("u1")).storedOf.isSome = true) :=
  ⟨(((c6_lent_out_consistency id (fun _ => none) id (List.replicate 16 0)
      { title := .str "Pussel", isLentOut := .str "true" } ("u1") samplePrev).1
      rfl (by decide)).2.2 (by decide)).1,
   ((c6_lent_out_consistency id (fun _ => none) id (List.replicate 16 0)
      { title := .str "Pussel", piecesNumber := .str "abc",
        isLentOut := .str "true" } ("u1") samplePrev).1 rfl (by decide)).1,
   ((c6_lent_out_consistency id (fun _ => none) id (List.replicate 16 0)
      { title := .str "Pussel", isLentOut := .str "false",
        lentOutToString := .str "Alice" } ("u1") samplePrev).2 rfl).1,
   by decide⟩

/-- C5 counterexample: this concrete field set violates two validation
rules at once — the title character-class rule (shown on the cast title)
and the numeric-field rule — yet the resulting error carries exactly one
message (the numeric pre-check throws first), so the validation is
fail-fast across rule families rather than covering every violated field
simultaneously. -/
theorem c5_counterexample :
    isNumberFieldNumber { title := .str "#", piecesNumber := .str "abc" }
      = some (numberFieldMsg ("Antal bitar")) ∧
    titleError (castString (JsVal.str "#")) = some titleFormatMsg ∧
    (addPuzzle id (fun _ => none) id (List.replicate 16 0)
        { title := .str "#", piecesNumber := .str "abc" } ("u1")).failureOf
      = some { status := 400, messages := [numberFieldMsg ("Antal bitar")] } :=
  ⟨by decide, by decide, by decide⟩

/-- C5 amended, stated universally: (1) whenever updatePuzzleInput throws
(the controller pre-checks: non-numeric numeric fields, lent-out without
borrower, missing title, more missing pieces than pieces), both Create and
Update fail with status 400 and that single message — fail-fast even when
further rules are violated; (2) whenever the input passes the pre-checks
and schema validation fails (and no invalid date collapses the report),
the failure response carries exactly the aggregated per-path message
list, and when no schema path fails the operation yields no validation
error at all; (3) for every document, each violated schema rule's message
is a member of the aggregated list, so schema violations are covered
simultaneously, one message per violated field. -/
theorem c5_validation_aggregation (pngOf : List Nat → List Nat)
    (parseDate : String → Option Int) (E : List Nat → List Nat) (iv : List Nat)
    (b : ReqBody) (ownerId : String) (prev : PuzzleDoc) :
    (∀ m, updatePuzzleInput pngOf parseDate b = .error m →
      addPuzzle pngOf parseDate E iv b ownerId
        = .failure { status := 400, messages := [m] } ∧
      updatePuzzle pngOf parseDate E iv prev b
        = .failure { status := 400, messages := [m] }) ∧
    (∀ inp, updatePuzzleInput pngOf parseDate b = .ok inp →
      (validationErrors (newPuzzleDoc parseDate inp ownerId) ≠ [] →
        hasInvalidDate (newPuzzleDoc parseDate inp ownerId) = false →
        addPuzzle pngOf parseDate E iv b ownerId
          = .failure
            { status := 400,
              messages := validationErrors (newPuzzleDoc parseDate inp ownerId) }) ∧
      (validationErrors (applyUpdate parseDate prev inp) ≠ [] →
        hasInvalidDate (applyUpdate parseDate prev inp) = false →
        updatePuzzle pngOf parseDate E iv prev b
          = .failure
            { status := 400,
              messages := validationErrors (applyUpdate parseDate prev inp) }) ∧
      (validationErrors (newPuzzleDoc parseDate inp ownerId) = [] →
        (addPuzzle pngOf parseDate E iv b ownerId).failureOf = none) ∧
      (validationErrors (applyUpdate parseDate prev inp) = [] →
        (updatePuzzle pngOf parseDate E iv prev b).failureOf = none)) ∧
    (∀ r : RawPuzzle,
      (∀ m, titleError r.title = some m → m ∈ validationErrors r) ∧
      (∀ m, piecesNumberError r.piecesNumber = some m → m ∈ validationErrors r) ∧
      (∀ m, sizeError r.sizeHeight (valOf r.sizeWidth) sizeHeightMsg = some m →
        m ∈ validationErrors r) ∧
      (∀ m, sizeError r.sizeWidth (valOf r.sizeHeight) sizeWidthMsg = some m →
        m ∈ validationErrors r) ∧
      (∀ m, maxLengthError r.manufacturer 50 manufacturerMaxMsg = some m →
        m ∈ validationErrors r) ∧
      (∀ m, maxLengthError r.location 100 locationMaxMsg = some m →
        m ∈ validationErrors r) ∧
      (∀ m, completeError r.complete (valOf r.missingPiecesNumber) = some m →
        m ∈ validationErrors r) ∧
      (∀ m, missingError r.missingPiecesNumber (valOf r.piecesNumber) = some m →
        m ∈ validationErrors r) ∧
      (∀ m, maxLengthError r.privateNote 1000 privateNoteMaxMsg = some m →
        m ∈ validationErrors r) ∧
      (∀ m, maxLengthError r.sharedNote 1000 sharedNoteMaxMsg = some m →
        m ∈ validationErrors r) ∧
      (∀ m, isLentOutError r.isLentOut (valOf r.lentOutToString) = some m →
        m ∈ validationErrors r) ∧
      (∀ m, maxLengthError r.lentOutToString 50 lentOutToStringMaxMsg = some m →
        m ∈ validationErrors r)) := by
  refine ⟨?_, ?_, ?_⟩
  · intro m h
    have hmem := updatePuzzleInput_error_mem h
    have hh : handleAddOrUpdateError (.thrown m) = { status := 400, messages := [m] } := by
      unfold handleAddOrUpdateError
      dsimp only
      rw [if_pos hmem]
    exact ⟨by simp [addPuzzle, h, hh], by simp [updatePuzzle, h, hh]⟩
  · intro inp h1
    refine ⟨?_, ?_, ?_, ?_⟩
    · intro hne hnd
      have hs : savePuzzle E iv (newPuzzleDoc parseDate inp ownerId)
          = .error (.validation (validationErrors (newPuzzleDoc parseDate inp ownerId))
              (hasInvalidDate (newPuzzleDoc parseDate inp ownerId))) := by
        unfold savePuzzle
        rw [if_neg hne]
      simp [addPuzzle, h1, hs, handleAddOrUpdateError, hnd]
    · intro hne hnd
      have hs : savePuzzle E iv (applyUpdate parseDate prev inp)
          = .error (.validation (validationErrors (applyUpdate parseDate prev inp))
              (hasInvalidDate (applyUpdate parseDate prev inp))) := by
        unfold savePuzzle
        rw [if_neg hne]
      simp [updatePuzzle, h1, hs, handleAddOrUpdateError, hnd]
    · intro he
      have hs : savePuzzle E iv (newPuzzleDoc parseDate inp ownerId)
          = .ok (schemaPreSave E iv (commitPuzzle (newPuzzleDoc parseDate inp ownerId))) := by
        unfold savePuzzle
        rw [if_pos he]
      simp [addPuzzle, h1, hs, AddOutcome.failureOf]
    · intro he
      have hs : savePuzzle E iv (applyUpdate parseDate prev inp)
          = .ok (schemaPreSave E iv (commitPuzzle (applyUpdate parseDate prev inp))) := by
        unfold savePuzzle
        rw [if_pos he]
      simp [updatePuzzle, h1, hs, UpdateOutcome.failureOf]
  · intro r
    refine ⟨?_, ?_, ?_, ?_, ?_, ?_, ?_, ?_, ?_, ?_, ?_, ?_⟩ <;>
      (intro m hm
       unfold validationErrors
       refine List.mem_filterMap.mpr ⟨some m, ?_, rfl⟩
       rw [← hm]
       simp)

/-- Witness for C5 at concrete inputs: a title and complete violation pass
the pre-checks and are reported together (both schema messages, in path
order); a non-numeric piecesNumber together with a malformed title is
reported fail-fast with the single numeric message; a minimal valid field
set produces no validation error; and each of the two schema-rule
messages of the aggregated case is indeed a member of the aggregate. -/
theorem c5_validation_aggregation_witness :
    (addPuzzle id (fun _ => none) id (List.replicate 16 0)
        { title := .str "#", piecesNumber := .str "500",
          complete := .str "false" } ("u1")
      = .failure { status := 400, messages := [titleFormatMsg, completeMsg] }) ∧
    (addPuzzle id (fun _ => none) id (List.replicate 16 0)
        { title := .str "#", piecesNumber := .str "abc" } ("u1")
      = .failure { status := 400, messages := [numberFieldMsg ("Antal bitar")] }) ∧
    ((addPuzzle id (fun _ => none) id (List.replicate 16 0)
        { title := .str "Pussel" } ("u1")).failureOf = none) ∧
    titleFormatMsg ∈ validationErrors (newPuzzleDoc (fun _ => none)
      ⟨.str "#", .str "500", .undefined, .undefined, .undefined, .undefined, .undefined,
        .str "false", .undefined, .undefined, .undefined, .undefined, .undefined,
        .undefined, none⟩ ("u1")) ∧
    completeMsg ∈ validationErrors (newPuzzleDoc (fun _ => none)
      ⟨.str "#", .str "500", .undefined, .undefined, .undefined, .undefined, .undefined,
        .str "false", .undefined, .undefined, .undefined, .undefined, .undefined,
        .undefined, none⟩ ("u1")) :=
  ⟨by
    have h := (((c5_validation_aggregation id (fun _ => none) id (List.replicate 16 0)
      { title := .str "#", piecesNumber := .str "500", complete := .str "false" } ("u1")
      samplePrev).2.1 ⟨.str "#", .str "500", .undefined, .undefined, .undefined, .undefined,
        .undefined, .str "false", .undefined, .undefined, .undefined, .undefined,
        .undefined, .undefined, none⟩ rfl).1) (by decide) (by decide)
    rw [h]
    rfl,
   ((c5_validation_aggregation id (fun _ => none) id (List.replicate 16 0)
      { title := .str "#", piecesNumber := .str "abc" } ("u1") samplePrev).1
      (numberFieldMsg ("Antal bitar")) rfl).1,
   (((c5_validation_aggregation id (fun _ => none) id (List.replicate 16 0)
      { title := .str "Pussel" } ("u1") samplePrev).2.1
      ⟨.str "Pussel", .undefined, .undefined, .undefined, .undefined, .undefined,
        .undefined, .bool true, .str "", .undefined, .undefined, .undefined, .undefined,
        .undefined, none⟩ rfl).2.2.1) (by decide),
   ((c5_validation_aggregation id (fun _ => none) id (List.replicate 16 0)
      { title := .str "#", piecesNumber := .str "500", complete := .str "false" } ("u1")
      samplePrev).2.2 (newPuzzleDoc (fun _ => none)
      ⟨.str "#", .str "500", .undefined, .undefined, .undefined, .undefined, .undefined,
        .str "false", .undefined, .undefined, .undefined, .undefined, .undefined,
        .undefined, none⟩ ("u1"))).1 titleFormatMsg (by decide),
   ((c5_validation_aggregation id (fun _ => none) id (List.replicate 16 0)
      { title := .str "#", piecesNumber := .str "500", complete := .str "false" } ("u1")
      samplePrev).2.2 (newPuzzleDoc (fun _ => none)
      ⟨.str "#", .str "500", .undefined, .undefined, .undefined, .undefined, .undefined,
        .str "false", .undefined, .undefined, .undefined, .undefined, .undefined,
        .undefined, none⟩ ("u1"))).2.2.2.2.2.2.1 completeMsg (by decide)⟩
